import Mathlib

/-!
# Maintenance-request workflow: status machine, scrap cascade, creation gate

A shallow embedding of the request services of the maintenance tracker:

* `src/services/MaintenanceRequestService.js`
  (`createMaintenanceRequest`, `getMaintenanceRequestById`, `updateMaintenanceRequest`,
  `updateStatus`, `deleteMaintenanceRequest`),
* `src/services/EquipmentService.js` (`getEquipmentById`, `scrapEquipment`),
* `src/utils/demoStorage.js` (the in-memory request map),
* `src/utils/dateHelper.js` (`isPastDate`),
* `src/middleware/errorHandler.js` (`ApiError`).

Modelling conventions.

* The two SQL tables are lists of rows in insertion order.  `SELECT ... WHERE id = ?`
  is a `filter`, `results[0]` is `head?`, `UPDATE ... WHERE id = ?` maps over the
  matching rows, `DELETE ... WHERE id = ?` filters them out, `INSERT` appends.
* Every `db.query` call either resolves or rejects.  An operation takes
  `avail : Nat → Bool`; `avail k` tells whether the `k`-th query that the operation
  issues (counted from 0 in execution order) resolves.  A rejected query changes nothing.
  Nothing is rolled back: the store returned next to an error is the store as the
  queries that did resolve left it.
* `new Date()` is the clock reading `now` (milliseconds since the epoch); all readings
  inside one call are the same instant.  Local time is UTC plus a fixed offset.
* `uuidv4()` is the parameter `requestId`.
* An operation returns the pair (outcome, store afterwards).
-/

set_option linter.unnecessarySeqFocus false

namespace Maintenance

/-- The `ApiError` class: a message and an HTTP status.  `data` is `{}` and `isCustom`
is `true` on every instance the services build, so neither is stored. -/
structure ApiError where
  message : String
  status : Nat
  deriving DecidableEq, Repr

/-- A row of `maintenance_requests`, also used for the objects held by the demo
storage (which alone carry `equipment_name` and `serial_number`). -/
structure RequestRow where
  id : String
  subject : String
  description : String
  type : String
  priority : String
  status : String
  equipment_id : String
  team_id : Option String
  assigned_to : Option String
  scheduled_date : Option Int
  notes : Option String
  created_by : String
  created_at : Int
  updated_at : Int
  completed_date : Option Int
  equipment_name : Option String
  serial_number : Option String
  deriving DecidableEq, Repr

/-- A row of `equipment`.  `category` is the column the repository layer reads and
writes; `EquipmentService` never names it. -/
structure EquipmentRow where
  id : String
  name : String
  serial_number : String
  department : String
  assigned_employee : Option String
  maintenance_team_id : Option String
  purchase_date : Int
  warranty_end_date : Int
  location : String
  is_scrapped : Bool
  created_at : Int
  updated_at : Int
  category : Option String := none
  deriving DecidableEq, Repr

/-- The persistent state: the two tables and `storage.maintenanceRequests` of
`demoStorage.js`. -/
structure Store where
  requests : List RequestRow
  equipment : List EquipmentRow
  demo : List RequestRow
  deriving DecidableEq, Repr

/-- The clock and the zone of the server process. -/
structure Clock where
  now : Int
  tzOffsetMs : Int
  deriving DecidableEq, Repr

/-- Body of `POST /api/requests` as the service reads it.  `status` stands for a
caller-supplied field the service never reads (a `status` or a `stage`); `assignedTo`
is a caller-supplied technician, which the service never reads either. -/
structure CreateData where
  subject : String
  description : String
  type : String
  priority : Option String
  equipmentId : String
  teamId : Option String
  scheduledDate : Option Int
  notes : Option String
  status : Option String
  assignedTo : Option String := none
  deriving DecidableEq, Repr

/-- Body of `PUT /api/requests/:id`: `none` is `undefined`; for the nullable fields
`some none` is `null`. -/
structure UpdateData where
  subject : Option String
  description : Option String
  type : Option String
  priority : Option String
  equipmentId : Option String
  teamId : Option (Option String)
  assignedTo : Option (Option String)
  scheduledDate : Option (Option Int)
  notes : Option (Option String)
  deriving DecidableEq, Repr

/-! ## Helpers of the embedding -/

/-- JavaScript `a || b` on a nullable string: `null`, `undefined` and `''` are falsy. -/
def orElse (a b : Option String) : Option String :=
  match a with
  | some x => if x = "" then b else some x
  | none => b

/-- `SELECT * FROM maintenance_requests WHERE id = ?` followed by `results[0]`. -/
def findRequest (rows : List RequestRow) (id : String) : Option RequestRow :=
  (rows.filter (fun r => r.id == id)).head?

/-- `SELECT * FROM equipment WHERE id = ?` followed by `results[0]`. -/
def findEquipment (rows : List EquipmentRow) (id : String) : Option EquipmentRow :=
  (rows.filter (fun e => e.id == id)).head?

/-- Lookup `storage.maintenanceRequests.get(id)`. -/
def demoGet (demo : List RequestRow) (id : String) : Option RequestRow :=
  demo.find? (fun r => r.id == id)

/-- Update `storage.maintenanceRequests.set(request.id, request)`: replaces the value of
an existing key in place, appends a new key. -/
def demoSet (demo : List RequestRow) (request : RequestRow) : List RequestRow :=
  if demo.any (fun r => r.id == request.id) then
    demo.map (fun r => if r.id == request.id then request else r)
  else demo ++ [request]

/-! ## utils/dateHelper.js -/

/-- Milliseconds in a day. -/
def msPerDay : Int := 86400000

/-- Effect of `d.setHours(0, 0, 0, 0)`: the instant of the local midnight that starts
the local calendar day of `t`. -/
def setHoursZero (tzOffsetMs t : Int) : Int :=
  t - (t + tzOffsetMs) % msPerDay

/-- Function `isPastDate(date)`: both instants are cut to local midnight and compared.
Instants are integers without the bound of the time-value range: a Date whose local
midnight would leave that range (it becomes invalid and compares false) is not
represented. -/
def isPastDate (c : Clock) (date : Int) : Bool :=
  decide (setHoursZero c.tzOffsetMs date < setHoursZero c.tzOffsetMs c.now)

/-! ## services/EquipmentService.js -/

/-- Method `EquipmentService.getEquipmentById(id)`. -/
def getEquipmentById (up : Bool) (s : Store) (id : String) : Except ApiError EquipmentRow :=
  if up then
    match findEquipment s.equipment id with
    | some e => .ok e
    | none => .error ⟨"Equipment not found", 404⟩
  else .error ⟨"Failed to retrieve equipment", 500⟩

/-- The statement `UPDATE equipment SET is_scrapped = 1, updated_at = ? WHERE id = ?`. -/
def markScrapped (now : Int) (id : String) (rows : List EquipmentRow) : List EquipmentRow :=
  rows.map (fun e => if e.id == id then { e with is_scrapped := true, updated_at := now } else e)

/-- Method `EquipmentService.scrapEquipment(id)`: `up0` is the UPDATE, `up1` the SELECT of
the read-back.  Its `catch` turns every error, the 404 of the read-back included, into
the 500 `Failed to scrap equipment`. -/
def scrapEquipment (up0 up1 : Bool) (now : Int) (s : Store) (id : String) :
    Except ApiError EquipmentRow × Store :=
  if up0 then
    let s1 : Store := { s with equipment := markScrapped now id s.equipment }
    match getEquipmentById up1 s1 id with
    | .ok e => (.ok e, s1)
    | .error _ => (.error ⟨"Failed to scrap equipment", 500⟩, s1)
  else (.error ⟨"Failed to scrap equipment", 500⟩, s)

/-! ## services/MaintenanceRequestService.js -/

/-- Method `getMaintenanceRequestById(id)`.  The inner `catch (dbError)` receives both a
rejected query and the 404 thrown for an empty result, and in both cases consults the
demo storage before throwing 404. -/
def getMaintenanceRequestById (up : Bool) (s : Store) (id : String) :
    Except ApiError RequestRow :=
  match (if up then findRequest s.requests id else none) with
  | some r => .ok r
  | none =>
    match demoGet s.demo id with
    | some d => .ok d
    | none => .error ⟨"Maintenance request not found", 404⟩

/-- The object literal `validTransitions` of `updateStatus`, read at a key: `none` is
`undefined` (any key other than the four). -/
def validTransitions (status : String) : Option (List String) :=
  if status = "NEW" then some ["IN_PROGRESS", "SCRAP"]
  else if status = "IN_PROGRESS" then some ["REPAIRED", "SCRAP"]
  else if status = "REPAIRED" then some []
  else if status = "SCRAP" then some []
  else none

/-- The expression `targets.join(', ') || 'None'`. -/
def joinOrNone (targets : List String) : String :=
  let j := ", ".intercalate targets
  if j = "" then "None" else j

/-- The message of the invalid-transition error. -/
def invalidTransitionMessage (currentStatus newStatus : String) (targets : List String) :
    String :=
  "Invalid status transition from " ++ currentStatus ++ " to " ++ newStatus ++
    ". Valid transitions: " ++ joinOrNone targets

/-- The statement `UPDATE maintenance_requests SET status = ?, completed_date = ?,
updated_at = ? WHERE id = ?`. -/
def setStatus (newStatus : String) (completedDate : Option Int) (now : Int) (id : String)
    (rows : List RequestRow) : List RequestRow :=
  rows.map (fun r =>
    if r.id == id then
      { r with status := newStatus, completed_date := completedDate, updated_at := now }
    else r)

/-- Tail of `updateStatus` after the optional scrap step: the status UPDATE (query `k`)
and the read-back (query `k + 1`). -/
def writeStatus (avail : Nat → Bool) (k : Nat) (now : Int) (s : Store) (id newStatus : String) :
    Except ApiError RequestRow × Store :=
  let completedDate : Option Int := if newStatus = "REPAIRED" then some now else none
  if avail k then
    let s1 : Store := { s with requests := setStatus newStatus completedDate now id s.requests }
    (getMaintenanceRequestById (avail (k + 1)) s1 id, s1)
  else (.error ⟨"Failed to update maintenance request status", 500⟩, s)

/-- Method `updateStatus(id, newStatus)`.

Queries: 0 the lookup of the request; for `SCRAP` 1 and 2 are those of `scrapEquipment`
and 3, 4 the status UPDATE and the read-back; otherwise 1, 2 are the status UPDATE and
the read-back.  When `validTransitions[currentStatus]` is `undefined` (or, for a key
inherited from `Object.prototype`, a value without `includes`), evaluating the guard or
the message raises a `TypeError`, which the `catch` reports as the 500 error. -/
def updateStatus (avail : Nat → Bool) (now : Int) (s : Store) (id newStatus : String) :
    Except ApiError RequestRow × Store :=
  match getMaintenanceRequestById (avail 0) s id with
  | .error e => (.error e, s)
  | .ok request =>
    let currentStatus := request.status
    match validTransitions currentStatus with
    | none => (.error ⟨"Failed to update maintenance request status", 500⟩, s)
    | some targets =>
      if !targets.contains newStatus then
        (.error ⟨invalidTransitionMessage currentStatus newStatus targets, 400⟩, s)
      else if newStatus = "SCRAP" then
        match scrapEquipment (avail 1) (avail 2) now s request.equipment_id with
        | (.error e, s1) => (.error e, s1)
        | (.ok _, s1) => writeStatus avail 3 now s1 id newStatus
      else writeStatus avail 1 now s id newStatus

/-- Method `deleteMaintenanceRequest(id)`: query 0 is the lookup, query 1 the DELETE. -/
def deleteMaintenanceRequest (avail : Nat → Bool) (s : Store) (id : String) :
    Except ApiError String × Store :=
  match getMaintenanceRequestById (avail 0) s id with
  | .error e => (.error e, s)
  | .ok request =>
    if request.status ≠ "NEW" then
      (.error ⟨"Can only delete maintenance requests with NEW status", 400⟩, s)
    else if avail 1 then
      (.ok "Maintenance request deleted successfully",
        { s with requests := s.requests.filter (fun r => !(r.id == id)) })
    else (.error ⟨"Failed to delete maintenance request", 500⟩, s)

/-- The row written by the INSERT of `createMaintenanceRequest` (status is the literal
`'NEW'` of the statement, `assigned_to` the literal `null`). -/
def newRequestRow (now : Int) (requestId : String) (data : CreateData) (createdBy : String)
    (teamId : Option String) : RequestRow :=
  { id := requestId
    subject := data.subject
    description := data.description
    type := data.type
    priority := (orElse data.priority (some "MEDIUM")).getD "MEDIUM"
    status := "NEW"
    equipment_id := data.equipmentId
    team_id := teamId
    assigned_to := none
    scheduled_date := data.scheduledDate
    notes := orElse data.notes none
    created_by := createdBy
    created_at := now
    updated_at := now
    completed_date := none
    equipment_name := none
    serial_number := none }

/-- Method `createMaintenanceRequest(data, createdBy)`.

Queries: 0 the equipment lookup, 1 the INSERT, 2 the read-back.  When the INSERT or the
read-back throws, the `catch (dbError)` saves the request object in the demo storage
and returns it. -/
def createMaintenanceRequest (avail : Nat → Bool) (c : Clock) (requestId : String) (s : Store)
    (data : CreateData) (createdBy : String) : Except ApiError RequestRow × Store :=
  match getEquipmentById (avail 0) s data.equipmentId with
  | .error e => (.error e, s)
  | .ok equipment =>
    if equipment.is_scrapped then
      (.error ⟨"Cannot create request for scrapped equipment", 400⟩, s)
    else if (match data.scheduledDate with
        | some d => isPastDate c d
        | none => false) then
      (.error ⟨"Scheduled date cannot be in the past. Please select today or a future date.",
        400⟩, s)
    else
      let teamId := orElse (orElse data.teamId equipment.maintenance_team_id) none
      let row := newRequestRow c.now requestId data createdBy teamId
      let demoRow : RequestRow :=
        { row with equipment_name := some equipment.name,
                   serial_number := some equipment.serial_number }
      if avail 1 then
        let s1 : Store := { s with requests := s.requests ++ [row] }
        match getMaintenanceRequestById (avail 2) s1 requestId with
        | .ok r => (.ok r, s1)
        | .error _ => (.ok demoRow, { s1 with demo := demoSet s1.demo demoRow })
      else (.ok demoRow, { s with demo := demoSet s.demo demoRow })

/-- The assignments `SET col = ?` of `updateMaintenanceRequest` applied to one row:
a column is written when the corresponding field of `data` is not `undefined`. -/
def applyUpdate (now : Int) (data : UpdateData) (r : RequestRow) : RequestRow :=
  { r with
    subject := data.subject.getD r.subject
    description := data.description.getD r.description
    type := data.type.getD r.type
    priority := data.priority.getD r.priority
    equipment_id := data.equipmentId.getD r.equipment_id
    team_id := data.teamId.getD r.team_id
    assigned_to := data.assignedTo.getD r.assigned_to
    scheduled_date := data.scheduledDate.getD r.scheduled_date
    notes := data.notes.getD r.notes
    updated_at := now }

/-- The test `updateFields.length === 0` of `updateMaintenanceRequest`. -/
def noUpdateFields (data : UpdateData) : Bool :=
  data.subject.isNone && data.description.isNone && data.type.isNone &&
  data.priority.isNone && data.equipmentId.isNone && data.teamId.isNone &&
  data.assignedTo.isNone && data.scheduledDate.isNone && data.notes.isNone

/-- Method `updateMaintenanceRequest(id, data)`: query 0 is the lookup, query 1 the UPDATE,
query 2 the read-back. -/
def updateMaintenanceRequest (avail : Nat → Bool) (c : Clock) (s : Store) (id : String)
    (data : UpdateData) : Except ApiError RequestRow × Store :=
  match getMaintenanceRequestById (avail 0) s id with
  | .error e => (.error e, s)
  | .ok request =>
    if (match data.scheduledDate with
        | some (some d) => isPastDate c d
        | _ => false) then
      (.error ⟨"Scheduled date cannot be in the past", 400⟩, s)
    else if noUpdateFields data then (.ok request, s)
    else if avail 1 then
      let s1 : Store :=
        { s with requests := s.requests.map (fun r => if r.id == id then applyUpdate c.now data r else r) }
      (getMaintenanceRequestById (avail 2) s1 id, s1)
    else (.error ⟨"Failed to update maintenance request", 500⟩, s)

/-- Every query resolves. -/
def allUp : Nat → Bool := fun _ => true

/-! ## The transition table as the specification states it -/

/-- The four statuses of the specification. -/
def statuses : List String := ["NEW", "IN_PROGRESS", "REPAIRED", "SCRAP"]

/-- The edges of the specification's transition table (from, to). -/
def transitionTable : List (String × String) :=
  [("NEW", "IN_PROGRESS"), ("NEW", "SCRAP"), ("IN_PROGRESS", "REPAIRED"), ("IN_PROGRESS", "SCRAP")]

/-! ## Operations as data, for statements over sequences of calls -/

/-- One call of one of the four mutating service operations. -/
inductive Op where
  | create (requestId : String) (data : CreateData) (createdBy : String)
  | update (id : String) (data : UpdateData)
  | setStatus (id : String) (newStatus : String)
  | delete (id : String)
  deriving DecidableEq, Repr

/-- The store after one call made at clock `c`, every query resolving. -/
def step (c : Clock) (s : Store) : Op → Store
  | .create requestId data createdBy =>
      (createMaintenanceRequest allUp c requestId s data createdBy).2
  | .update id data => (updateMaintenanceRequest allUp c s id data).2
  | .setStatus id newStatus => (updateStatus allUp c.now s id newStatus).2
  | .delete id => (deleteMaintenanceRequest allUp s id).2

/-- The stores visited by a sequence of calls, the initial one first. -/
def run (s : Store) : List (Clock × Op) → List Store
  | [] => [s]
  | (c, op) :: rest => s :: run (step c s op) rest

/-- The stored status of request `id`, `none` when the table has no such row. -/
def statusOf (s : Store) (id : String) : Option String :=
  (findRequest s.requests id).map (fun r => r.status)

/-- The statuses request `id` shows along a sequence of calls, in order (stores in
which it has no row are skipped). -/
def statusTrace (s : Store) (ops : List (Clock × Op)) (id : String) : List String :=
  (run s ops).filterMap (fun st => statusOf st id)

/-- How the stored status of one request may differ between two consecutive stores:
unchanged, moved along an edge of the table, row removed while `NEW`, or row created
as `NEW`. -/
def StatusStep (x y : Option String) : Prop :=
  x = y ∨ (∃ a b, x = some a ∧ y = some b ∧ (a, b) ∈ transitionTable) ∨
  (x = some "NEW" ∧ y = none) ∨ (x = none ∧ y = some "NEW")

/-- One observed change of status is allowed: no change, or an edge of the table. -/
def EdgeOrSame (a b : String) : Prop := a = b ∨ (a, b) ∈ transitionTable

/-- Status `b` can be reached from `a` along the table (its reflexive-transitive
closure, written out: the only two-edge path is NEW, IN_PROGRESS, REPAIRED). -/
def Reaches (a b : String) : Prop :=
  a = b ∨ (a, b) ∈ transitionTable ∨ (a = "NEW" ∧ b = "REPAIRED")

/-- Equipment `eid` is scrapped in store `st`: it has a row, and every row with that id
has `is_scrapped` set. -/
def Scrapped (st : Store) (eid : String) : Prop :=
  (∃ e, findEquipment st.equipment eid = some e ∧ e.is_scrapped = true) ∧
  ∀ e ∈ st.equipment, e.id = eid → e.is_scrapped = true

/-! ## JavaScript dates

Time values are milliseconds since the epoch; a day number counts days since
1970-01-01.  `none` stands for an Invalid Date. -/

/-- ECMAScript `DayFromYear(y)`: the day number of 1 January of year `y`. -/
def dayFromYear (y : Int) : Int :=
  365 * (y - 1970) + (y - 1969) / 4 - (y - 1901) / 100 + (y - 1601) / 400

/-- The leap-year rule (ECMAScript `DaysInYear(y) = 366`). -/
def isLeapYear (y : Int) : Bool :=
  (y % 4 == 0 && y % 100 != 0) || y % 400 == 0

/-- Days of a year that precede the month with index `mn` (0 is January). -/
def daysBeforeMonth (leap : Bool) (mn : Int) : Int :=
  let l : Int := if leap then 1 else 0
  if mn = 0 then 0
  else if mn = 1 then 31
  else if mn = 2 then 59 + l
  else if mn = 3 then 90 + l
  else if mn = 4 then 120 + l
  else if mn = 5 then 151 + l
  else if mn = 6 then 181 + l
  else if mn = 7 then 212 + l
  else if mn = 8 then 243 + l
  else if mn = 9 then 273 + l
  else if mn = 10 then 304 + l
  else 334 + l

/-- Number of days of the month with index `mn` (0 is January). -/
def daysInMonth (leap : Bool) (mn : Int) : Int :=
  if mn = 1 then (if leap then 29 else 28)
  else if mn = 3 ∨ mn = 5 ∨ mn = 8 ∨ mn = 10 then 30
  else 31

/-- ECMAScript `MakeDay(year, month, date)` on integers: month indices outside 0..11
carry into the year, and `date` counts from the first of the month (so date 0 is the
last day of the month before). -/
def makeDay (year month date : Int) : Int :=
  let ym := year + month / 12
  let mn := month % 12
  dayFromYear ym + daysBeforeMonth (isLeapYear ym) mn + date - 1

/-- The largest time value of a valid Date (ECMAScript `TimeClip`). -/
def maxTimeValue : Int := 8640000000000000

/-- The constructor `new Date(year, monthIndex, day)`: local midnight of that day (a
two-digit year counts from 1900), Invalid Date outside the range of time values. -/
def newDateLocal (tzOffsetMs year monthIndex day : Int) : Option Int :=
  let yr := if 0 ≤ year ∧ year ≤ 99 then 1900 + year else year
  let t := makeDay yr monthIndex day * msPerDay - tzOffsetMs
  if -maxTimeValue ≤ t ∧ t ≤ maxTimeValue then some t else none

/-- The date that `d.toISOString().split('T')[0]` prints, as a day number: the UTC
calendar day of the instant. -/
def utcDay (t : Int) : Int := t / msPerDay

/-- The instant `new Date('YYYY-MM-DD')` gives for the calendar day with number `day`:
a date-only text is read as midnight UTC. -/
def dateOnly (day : Int) : Int := day * msPerDay

/-- The calendar day of instant `t` on the server's clock. -/
def localDay (tzOffsetMs t : Int) : Int := (t + tzOffsetMs) / msPerDay

/-- Year, month (1..12) and day of month of a day number, as `toISOString` prints
them (proleptic Gregorian calendar, computed era by era of 400 years). -/
def civilFromDays (day : Int) : Int × Int × Int :=
  let z := day + 719468
  let era := z / 146097
  let doe := z - era * 146097
  let yoe := (doe - doe / 1460 + doe / 36524 - doe / 146096) / 365
  let doy := doe - (365 * yoe + yoe / 4 - yoe / 100)
  let mp := (5 * doy + 2) / 153
  let d := doy - (153 * mp + 2) / 5 + 1
  let m := if mp < 10 then mp + 3 else mp - 9
  (yoe + era * 400 + (if m ≤ 2 then 1 else 0), m, d)

/-- Function `isDateInPast(dateStr)` of `dateHelper.js`: the same body as `isPastDate`,
with the same reading of instants. -/
def isDateInPast (c : Clock) (date : Int) : Bool :=
  decide (setHoursZero c.tzOffsetMs date < setHoursZero c.tzOffsetMs c.now)

/-! ## services/EquipmentService.js: updateEquipment -/

/-- Update data of `updateEquipment`: `none` is `undefined`; for the nullable fields
`some none` is `null`. -/
structure EquipmentUpdateData where
  name : Option String
  serialNumber : Option String
  department : Option String
  assignedEmployee : Option (Option String)
  maintenanceTeam : Option (Option String)
  purchaseDate : Option Int
  warrantyEndDate : Option Int
  location : Option String
  isScrapped : Option Bool
  deriving DecidableEq, Repr

/-- The assignments `SET col = ?` of `updateEquipment` applied to one row. -/
def applyEquipmentUpdate (now : Int) (data : EquipmentUpdateData) (e : EquipmentRow) :
    EquipmentRow :=
  { e with
    name := data.name.getD e.name
    serial_number := data.serialNumber.getD e.serial_number
    department := data.department.getD e.department
    assigned_employee := data.assignedEmployee.getD e.assigned_employee
    maintenance_team_id := data.maintenanceTeam.getD e.maintenance_team_id
    purchase_date := data.purchaseDate.getD e.purchase_date
    warranty_end_date := data.warrantyEndDate.getD e.warranty_end_date
    location := data.location.getD e.location
    is_scrapped := data.isScrapped.getD e.is_scrapped
    updated_at := now }

/-- The test `updateFields.length === 0` of `updateEquipment`. -/
def noEquipmentFields (data : EquipmentUpdateData) : Bool :=
  data.name.isNone && data.serialNumber.isNone && data.department.isNone &&
  data.assignedEmployee.isNone && data.maintenanceTeam.isNone &&
  data.purchaseDate.isNone && data.warrantyEndDate.isNone && data.location.isNone &&
  data.isScrapped.isNone

/-- Tail of `updateEquipment`: the empty-update exit, the UPDATE (query `k`) and the
read-back (query `k + 1`). -/
def writeEquipment (avail : Nat → Bool) (k : Nat) (now : Int) (s : Store) (id : String)
    (data : EquipmentUpdateData) (equipment : EquipmentRow) :
    Except ApiError EquipmentRow × Store :=
  if noEquipmentFields data then (.ok equipment, s)
  else if avail k then
    let s1 : Store :=
      { s with equipment :=
          s.equipment.map (fun e => if e.id == id then applyEquipmentUpdate now data e else e) }
    (getEquipmentById (avail (k + 1)) s1 id, s1)
  else (.error ⟨"Failed to update equipment", 500⟩, s)

/-- Method `EquipmentService.updateEquipment(id, data)`.

Queries: 0 the lookup; when `serialNumber` is given, 1 the duplicate check, 2 the UPDATE
and 3 the read-back; otherwise 1 the UPDATE and 2 the read-back. -/
def updateEquipment (avail : Nat → Bool) (now : Int) (s : Store) (id : String)
    (data : EquipmentUpdateData) : Except ApiError EquipmentRow × Store :=
  match getEquipmentById (avail 0) s id with
  | .error e => (.error e, s)
  | .ok equipment =>
    if equipment.is_scrapped && data.isScrapped == some false then
      (.error ⟨"Cannot unscrap equipment", 400⟩, s)
    else
      match data.serialNumber with
      | some sn =>
        if avail 1 then
          if s.equipment.any (fun e => e.serial_number == sn && e.id != id) then
            (.error ⟨"Serial number already exists", 409⟩, s)
          else writeEquipment avail 2 now s id data equipment
        else (.error ⟨"Failed to update equipment", 500⟩, s)
      | none => writeEquipment avail 1 now s id data equipment

/-! ## models/MaintenanceRequest.js -/

/-- The `MaintenanceRequest` class.  `scheduledDate` is the instant `new Date` reads from
the field; `createdAt`, `updatedAt`, `completedAt` are calendar days (day numbers), as
`getTodayDate()` produces them; `none` is `null` or `undefined`. -/
structure MaintenanceRequest where
  id : String
  subject : String
  requestType : String
  equipmentId : String
  category : Option String
  maintenanceTeamId : Option String
  assignedTechnicianId : Option String
  scheduledDate : Option Int
  durationHours : Option ℚ
  stage : String
  overdue : Bool
  createdAt : Int
  updatedAt : Int
  completedAt : Option Int
  deriving DecidableEq, Repr

/-- The argument `data` of the constructor: `none` is a missing (or `null`) property. -/
structure RequestData where
  id : Option String
  subject : String
  requestType : String
  equipmentId : String
  category : Option String
  maintenanceTeamId : Option String
  assignedTechnicianId : Option String
  scheduledDate : Option Int
  durationHours : Option ℚ
  stage : Option String
  overdue : Option Bool
  createdAt : Option Int
  updatedAt : Option Int
  completedAt : Option Int
  deriving DecidableEq, Repr

/-- Function `getTodayDate()`: the UTC calendar day of the clock. -/
def getTodayDate (c : Clock) : Int := utcDay c.now

/-- JavaScript `h || null` on a number: `0` is falsy. -/
def numberOrNull (h : Option ℚ) : Option ℚ :=
  match h with
  | some x => if x = 0 then none else some x
  | none => none

/-- The constructor of `MaintenanceRequest`; `generatedId` is what `generateRequestId()`
would return. -/
def MaintenanceRequest.construct (c : Clock) (generatedId : String) (data : RequestData) :
    MaintenanceRequest :=
  { id := (orElse data.id (some generatedId)).getD generatedId
    subject := data.subject
    requestType := data.requestType
    equipmentId := data.equipmentId
    category := data.category
    maintenanceTeamId := data.maintenanceTeamId
    assignedTechnicianId := orElse data.assignedTechnicianId none
    scheduledDate := data.scheduledDate
    durationHours := numberOrNull data.durationHours
    stage := (orElse data.stage (some "New")).getD "New"
    overdue := data.overdue.getD false
    createdAt := data.createdAt.getD (getTodayDate c)
    updatedAt := data.updatedAt.getD (getTodayDate c)
    completedAt := data.completedAt }

/-- Method `calculateOverdue()`: the returned value and the object afterwards. -/
def MaintenanceRequest.calculateOverdue (c : Clock) (m : MaintenanceRequest) :
    Bool × MaintenanceRequest :=
  match (if m.requestType = "Preventive" then m.scheduledDate else none) with
  | some d =>
    let isOverdue := isDateInPast c d && (m.stage != "Repaired")
    (isOverdue, { m with overdue := isOverdue })
  | none => (m.overdue, m)

/-- Method `moveToInProgress()`. -/
def MaintenanceRequest.moveToInProgress (c : Clock) (m : MaintenanceRequest) :
    Bool × MaintenanceRequest :=
  if m.stage = "New" then
    (true, { m with stage := "In Progress", updatedAt := getTodayDate c })
  else (false, m)

/-- Method `markAsRepaired(durationHours)`; the argument is `none` when it is missing. -/
def MaintenanceRequest.markAsRepaired (c : Clock) (durationHours : Option ℚ)
    (m : MaintenanceRequest) : Bool × MaintenanceRequest :=
  match durationHours with
  | some h =>
    if m.stage = "In Progress" ∧ h ≠ 0 ∧ h > 0 then
      (true, { m with stage := "Repaired", durationHours := some h,
                      completedAt := some (getTodayDate c), updatedAt := getTodayDate c,
                      overdue := false })
    else (false, m)
  | none => (false, m)

/-- Method `markAsScrap()`. -/
def MaintenanceRequest.markAsScrap (c : Clock) (m : MaintenanceRequest) :
    Bool × MaintenanceRequest :=
  (true, { m with stage := "Scrap", completedAt := some (getTodayDate c),
                  updatedAt := getTodayDate c, overdue := false })

/-- Method `isClosed()`. -/
def MaintenanceRequest.isClosed (m : MaintenanceRequest) : Bool :=
  m.stage == "Repaired" || m.stage == "Scrap"

/-- The transition table of the specification in the stage names of
`config/constants.js`. -/
def stageTable : List (String × String) :=
  [("New", "In Progress"), ("New", "Scrap"), ("In Progress", "Repaired"),
   ("In Progress", "Scrap")]

/-! ## repositories/MaintenanceRequestRepository.js -/

/-- A row of `maintenance_requests` as the repository writes it. -/
structure RepoRequestRow where
  id : String
  subject : String
  request_type : String
  equipment_id : String
  assigned_technician_id : Option String
  scheduled_date : Option Int
  duration_hours : Option ℚ
  stage : String
  created_at : Int
  updated_at : Int
  completed_at : Option Int
  deriving DecidableEq, Repr

/-- A row of the SELECT built by `_getBaseSelect`: the request columns and the two
columns of the joined equipment row. -/
structure JoinedRow where
  mr : RepoRequestRow
  maintenance_team_id : Option String
  category : Option String
  deriving DecidableEq, Repr

/-- The first row of the repository's table with the given id. -/
def findRepoRequest (requests : List RepoRequestRow) (id : String) : Option RepoRequestRow :=
  requests.find? (fun r => r.id == id)

/-- The query of `_getBaseSelect`: `maintenance_requests` LEFT JOIN `equipment` on the
equipment id (a request without equipment row gets nulls). -/
def baseSelect (requests : List RepoRequestRow) (equipment : List EquipmentRow) :
    List JoinedRow :=
  requests.flatMap (fun r =>
    match equipment.filter (fun e => e.id == r.equipment_id) with
    | [] => [⟨r, none, none⟩]
    | es => es.map (fun e => ⟨r, e.maintenance_team_id, e.category⟩))

/-- Method `_mapToModel(row)` for a row that is present. -/
def mapToModel (c : Clock) (generatedId : String) (row : JoinedRow) : MaintenanceRequest :=
  let request := MaintenanceRequest.construct c generatedId
    { id := some row.mr.id
      subject := row.mr.subject
      requestType := row.mr.request_type
      equipmentId := row.mr.equipment_id
      category := none
      maintenanceTeamId := row.maintenance_team_id
      assignedTechnicianId := row.mr.assigned_technician_id
      scheduledDate := row.mr.scheduled_date
      durationHours := row.mr.duration_hours
      stage := some row.mr.stage
      overdue := none
      createdAt := some row.mr.created_at
      updatedAt := some row.mr.updated_at
      completedAt := row.mr.completed_at }
  let request1 : MaintenanceRequest :=
    match orElse row.maintenance_team_id none with
    | some t => { request with maintenanceTeamId := some t }
    | none => request
  let request2 : MaintenanceRequest :=
    match orElse row.category none with
    | some cat => { request1 with category := some cat }
    | none => request1
  (request2.calculateOverdue c).2

/-- Method `MaintenanceRequestRepository.findById(id)` with the query resolving: `none`
is `null`. -/
def findById (c : Clock) (generatedId : String) (requests : List RepoRequestRow)
    (equipment : List EquipmentRow) (id : String) : Option MaintenanceRequest :=
  ((baseSelect requests equipment).filter (fun j => j.mr.id == id)).head?.map
    (mapToModel c generatedId)

/-- Method `MaintenanceRequestRepository.create(requestData)` with the query resolving:
the object returned and the table afterwards.  Neither team nor category is a column
of the INSERT. -/
def repositoryCreate (c : Clock) (generatedId : String) (requests : List RepoRequestRow)
    (requestData : RequestData) : MaintenanceRequest × List RepoRequestRow :=
  let request := MaintenanceRequest.construct c generatedId requestData
  (request, requests ++ [
    { id := request.id
      subject := request.subject
      request_type := request.requestType
      equipment_id := request.equipmentId
      assigned_technician_id := request.assignedTechnicianId
      scheduled_date := request.scheduledDate
      duration_hours := request.durationHours
      stage := request.stage
      created_at := request.createdAt
      updated_at := request.updatedAt
      completed_at := request.completedAt }])

/-! ## services/MaintenanceRequestService.js: getCalendar -/

/-- The object `getCalendar` returns. -/
structure CalendarResult where
  month : Int
  year : Int
  count : Nat
  requests : List RequestRow
  deriving DecidableEq, Repr

/-- The two texts `start` and `end` of `getCalendar`, as day numbers: the UTC days of
`new Date(year, month - 1, 1)` and of `new Date(year, month, 0)`.  `none` when
`toISOString` throws its `RangeError` on an Invalid Date. -/
def calendarRange (tzOffsetMs month year : Int) : Option (Int × Int) :=
  match newDateLocal tzOffsetMs year (month - 1) 1, newDateLocal tzOffsetMs year month 0 with
  | some startDate, some endDate => some (utcDay startDate, utcDay endDate)
  | _, _ => none

/-- The WHERE clause of the calendar query on one row.  `scheduled_date` is a date
column: it is compared by calendar day, the UTC day of the instant `new Date` reads
from the column text; a NULL date satisfies no comparison. -/
def calendarWhere (start stop : Int) (r : RequestRow) : Bool :=
  match r.scheduled_date with
  | some d =>
    r.type == "PREVENTIVE" && decide (start ≤ utcDay d) && decide (utcDay d ≤ stop) &&
      r.status != "SCRAP"
  | none => false

/-- The sort key of `ORDER BY mr.scheduled_date ASC`. -/
def scheduledKey (r : RequestRow) : Int := r.scheduled_date.getD 0

/-- The calendar query: the rows that satisfy the WHERE clause, in ascending order of
`scheduled_date`, each with the `equipment_name` and `serial_number` columns of the
joined equipment row.  The ids of `equipment` and `maintenance_teams` are taken to be
unique, so each LEFT JOIN adds columns and no rows; the `team_name` column is not
carried by the row type. -/
def calendarQuery (s : Store) (start stop : Int) : List RequestRow :=
  ((s.requests.filter (calendarWhere start stop)).insertionSort
      (fun a b => scheduledKey a ≤ scheduledKey b)).map
    (fun r =>
      { r with
        equipment_name := (findEquipment s.equipment r.equipment_id).map (fun e => e.name)
        serial_number :=
          (findEquipment s.equipment r.equipment_id).map (fun e => e.serial_number) })

/-- Method `getCalendar(month, year)`; `up` tells whether its one query resolves.  In the
filter, `new Date(null)` is the epoch. -/
def getCalendar (up : Bool) (c : Clock) (s : Store) (month year : Int) :
    Except ApiError CalendarResult :=
  if month < 1 ∨ month > 12 then .error ⟨"Invalid month. Must be between 1 and 12", 400⟩
  else if year < 2020 then .error ⟨"Invalid year", 400⟩
  else
    match calendarRange c.tzOffsetMs month year with
    | none => .error ⟨"Failed to retrieve calendar", 500⟩
    | some (start, stop) =>
      if up then
        let results := calendarQuery s start stop
        let validResults := results.filter (fun r => !isPastDate c (r.scheduled_date.getD 0))
        .ok ⟨month, year, validResults.length, validResults⟩
      else .ok ⟨month, year, 0, []⟩

/-- The row a calendar query returns for a stored row: the `equipment_name` and
`serial_number` columns of the joined equipment row are added. -/
def calendarJoin (s : Store) (r : RequestRow) : RequestRow :=
  { r with
    equipment_name := (findEquipment s.equipment r.equipment_id).map (fun e => e.name)
    serial_number := (findEquipment s.equipment r.equipment_id).map (fun e => e.serial_number) }

/-! ## services/EquipmentService.js: createEquipment, and sequences of equipment calls -/

/-- Body of `POST /api/equipment` as the service reads it. -/
structure CreateEquipmentData where
  name : String
  serialNumber : String
  department : String
  assignedEmployee : Option String
  maintenanceTeam : Option String
  purchaseDate : Int
  warrantyEndDate : Int
  location : String
  deriving DecidableEq, Repr

/-- Method `EquipmentService.createEquipment(data)`; `equipmentId` is the `uuidv4()`.

Queries: 0 the duplicate check on the serial number, 1 the INSERT (whose `is_scrapped`
is the literal 0), 2 the read-back. -/
def createEquipment (avail : Nat → Bool) (now : Int) (equipmentId : String) (s : Store)
    (data : CreateEquipmentData) : Except ApiError EquipmentRow × Store :=
  if avail 0 then
    if s.equipment.any (fun e => e.serial_number == data.serialNumber) then
      (.error ⟨"Equipment with this serial number already exists", 409⟩, s)
    else if avail 1 then
      let s1 : Store :=
        { s with equipment := s.equipment ++ [
            { id := equipmentId
              name := data.name
              serial_number := data.serialNumber
              department := data.department
              assigned_employee := orElse data.assignedEmployee none
              maintenance_team_id := orElse data.maintenanceTeam none
              purchase_date := data.purchaseDate
              warranty_end_date := data.warrantyEndDate
              location := data.location
              is_scrapped := false
              created_at := now
              updated_at := now }] }
      (getEquipmentById (avail 2) s1 equipmentId, s1)
    else (.error ⟨"Failed to create equipment", 500⟩, s)
  else (.error ⟨"Failed to create equipment", 500⟩, s)

/-- One call of one of the three mutating equipment operations. -/
inductive EquipmentOp where
  | create (equipmentId : String) (data : CreateEquipmentData)
  | update (id : String) (data : EquipmentUpdateData)
  | scrap (id : String)
  deriving DecidableEq, Repr

/-- The store after one equipment call made at time `now` under availability `avail`. -/
def equipmentStep (avail : Nat → Bool) (now : Int) (s : Store) : EquipmentOp → Store
  | .create equipmentId data => (createEquipment avail now equipmentId s data).2
  | .update id data => (updateEquipment avail now s id data).2
  | .scrap id => (scrapEquipment (avail 0) (avail 1) now s id).2

/-- The stores visited by a sequence of equipment calls, the initial one first; each
call comes with its own availability and clock reading. -/
def runEquipment (s : Store) : List ((Nat → Bool) × Int × EquipmentOp) → List Store
  | [] => [s]
  | (avail, now, op) :: rest => s :: runEquipment (equipmentStep avail now s op) rest

/-- Equipment `id` has a row and the row the service reads for it is scrapped. -/
def ScrappedRow (s : Store) (id : String) : Prop :=
  ∃ e, findEquipment s.equipment id = some e ∧ e.is_scrapped = true

/-! ## Overlapping calls of updateStatus -/

/-- The part of `updateStatus` that follows its first `await`: the guard and the writes,
run on the store as it is when the call resumes, for the request the lookup returned.
The queries keep the numbers they have in `updateStatus`. -/
def updateStatusFrom (avail : Nat → Bool) (now : Int) (request : RequestRow) (s : Store)
    (id newStatus : String) : Except ApiError RequestRow × Store :=
  match validTransitions request.status with
  | none => (.error ⟨"Failed to update maintenance request status", 500⟩, s)
  | some targets =>
    if !targets.contains newStatus then
      (.error ⟨invalidTransitionMessage request.status newStatus targets, 400⟩, s)
    else if newStatus = "SCRAP" then
      match scrapEquipment (avail 1) (avail 2) now s request.equipment_id with
      | (.error e, s1) => (.error e, s1)
      | (.ok _, s1) => writeStatus avail 3 now s1 id newStatus
    else writeStatus avail 1 now s id newStatus

/-! ## models/MaintenanceTeam.js and canAssignTechnician -/

/-- The `MaintenanceTeam` class. -/
structure MaintenanceTeam where
  id : String
  teamName : String
  technicians : List String
  createdAt : Int
  updatedAt : Int
  deriving DecidableEq, Repr

/-- Method `hasTechnician(technicianId)`. -/
def MaintenanceTeam.hasTechnician (t : MaintenanceTeam) (technicianId : String) : Bool :=
  t.technicians.contains technicianId

/-- Method `canAssignTechnician(technicianId, team)` of `MaintenanceRequest`; `none` is a
missing team. -/
def MaintenanceRequest.canAssignTechnician (_m : MaintenanceRequest) (technicianId : String)
    (team : Option MaintenanceTeam) : Bool :=
  match team with
  | none => false
  | some t => t.hasTechnician technicianId

/-! ## utils/validators.js -/

/-- The fields `validateMaintenanceRequestData` reads; `none` is a missing or `null`
property, `scheduledDate` is the text as received. -/
structure ValidationData where
  subject : Option String
  equipmentId : Option String
  scheduledDate : Option String
  durationHours : Option ℚ
  deriving DecidableEq, Repr

/-- The characters `String.prototype.trim` removes (WhiteSpace and LineTerminator). -/
def isJsWhitespace (ch : Char) : Bool :=
  [0x9, 0xA, 0xB, 0xC, 0xD, 0x20, 0xA0, 0x1680, 0x2000, 0x2001, 0x2002, 0x2003, 0x2004,
   0x2005, 0x2006, 0x2007, 0x2008, 0x2009, 0x200A, 0x2028, 0x2029, 0x202F, 0x205F, 0x3000,
   0xFEFF].contains ch.toNat

/-- The test `!text || text.trim().length === 0`. -/
def isBlank (text : Option String) : Bool :=
  match text with
  | none => true
  | some t => t.toList.all isJsWhitespace

/-- The regular expression `/^\d{4}-\d{2}-\d{2}$/`. -/
def matchesDatePattern (t : String) : Bool :=
  match t.toList with
  | [a, b, c, d, m1, e, f, m2, g, h] =>
    a.isDigit && b.isDigit && c.isDigit && d.isDigit && m1 == '-' && e.isDigit &&
      f.isDigit && m2 == '-' && g.isDigit && h.isDigit
  | _ => false

/-- Function `isValidDate(dateStr)`; `dateParses t` tells whether `new Date(t)` is a valid
date. -/
def isValidDate (dateParses : String → Bool) (dateStr : Option String) : Bool :=
  match dateStr with
  | none => false
  | some t => if t = "" then false else matchesDatePattern t && dateParses t

/-- Function `validateMaintenanceRequestData(data, requestType)`: the pair `valid`,
`errors`. -/
def validateMaintenanceRequestData (dateParses : String → Bool) (data : ValidationData)
    (requestType : String) : Bool × List String :=
  let e1 := if isBlank data.subject then ["Subject is required"] else []
  let e2 := if isBlank data.equipmentId then ["Equipment ID is required"] else []
  let e3 :=
    if requestType = "Preventive" ∧ !isValidDate dateParses data.scheduledDate then
      ["Valid scheduled date is required for preventive requests (YYYY-MM-DD)"]
    else []
  let e4 :=
    match data.durationHours with
    | some h =>
      if h ≠ 0 ∧ h < 0 then ["Duration hours must be a non-negative number"] else []
    | none => []
  let errors := e1 ++ e2 ++ e3 ++ e4
  (errors.isEmpty, errors)

/-! ## Sample data -/

/-- Availability in which only the status UPDATE of a SCRAP call (query 3) is rejected. -/
def statusWriteFails : Nat → Bool := fun k => k != 3

/-- A sequence of calls on the NEW request of `sampleStore`: start work, complete,
then three calls the service rejects (back to NEW, on to SCRAP, delete) and an edit. -/
def sampleOps : List (Clock × Op) :=
  [(⟨1000, 0⟩, .setStatus "r-new" "IN_PROGRESS"),
   (⟨2000, 0⟩, .setStatus "r-new" "REPAIRED"),
   (⟨3000, 0⟩, .setStatus "r-new" "NEW"),
   (⟨4000, 0⟩, .setStatus "r-new" "SCRAP"),
   (⟨5000, 0⟩, .delete "r-new"),
   (⟨6000, 0⟩, .update "r-new" ⟨some "Spindle replaced", none, none, none, none, none, none,
      none, none⟩)]

/-- A piece of equipment in service. -/
def sampleEquipment : EquipmentRow :=
  { id := "eq-1", name := "CNC Machine A", serial_number := "CNC-2023-001",
    department := "Manufacturing", assigned_employee := none,
    maintenance_team_id := some "team-1", purchase_date := 0, warranty_end_date := 0,
    location := "Building A", is_scrapped := false, created_at := 0, updated_at := 0 }

/-- A request on `sampleEquipment` with the given id and status. -/
def sampleRequest (id status : String) : RequestRow :=
  { id := id, subject := "Spindle noise", description := "Spindle is noisy",
    type := "CORRECTIVE", priority := "MEDIUM", status := status, equipment_id := "eq-1",
    team_id := some "team-1", assigned_to := none, scheduled_date := none, notes := none,
    created_by := "u-1", created_at := 0, updated_at := 0, completed_date := none,
    equipment_name := none, serial_number := none }

/-- A store with one request in each of the four statuses, all on `sampleEquipment`. -/
def sampleStore : Store :=
  { requests := [sampleRequest "r-new" "NEW", sampleRequest "r-prog" "IN_PROGRESS",
                 sampleRequest "r-done" "REPAIRED", sampleRequest "r-scrap" "SCRAP"]
    equipment := [sampleEquipment]
    demo := [] }

/-- A creation body for `sampleEquipment` with the given type, team and scheduled date. -/
def sampleCreate (type : String) (teamId : Option String) (scheduledDate : Option Int) :
    CreateData :=
  { subject := "Quarterly inspection", description := "Inspect the spindle", type := type,
    priority := none, equipmentId := "eq-1", teamId := teamId,
    scheduledDate := scheduledDate, notes := none, status := some "REPAIRED" }

/-- The instant 2025-02-10T15:00:00Z on a server five hours west of UTC, where it is
10:00 on 10 February 2025 (day number 20129). -/
def clockNewYork : Clock := ⟨dateOnly 20129 + 54000000, -18000000⟩

/-- The instant 2025-01-15T06:30:00Z on a server five and a half hours east of UTC,
where it is noon on 15 January 2025. -/
def clockKolkata : Clock := ⟨dateOnly 20103 + 23400000, 19800000⟩

/-- Availability in which only the INSERT of a creation (query 1) is rejected. -/
def insertFails : Nat → Bool := fun k => k != 1

/-- The body handed to the repository for a preventive request on `sampleEquipment`,
carrying the team and category the equipment has in `sampleRepoEquipment`. -/
def sampleRequestData (stage : String) (scheduledDate : Option Int) : RequestData :=
  { id := some "REQ-000001", subject := "Pressure testing", requestType := "Preventive",
    equipmentId := "eq-1", category := some "Machinery", maintenanceTeamId := some "team-1",
    assignedTechnicianId := none, scheduledDate := scheduledDate, durationHours := none,
    stage := some stage, overdue := none, createdAt := none, updatedAt := none,
    completedAt := none }

/-- The store of `sampleStore` with a category on its equipment. -/
def sampleRepoStore : Store :=
  { sampleStore with equipment := [{ sampleEquipment with category := some "Machinery" }] }

/-- An update that moves equipment to another maintenance team. -/
def moveToTeam (team : String) : EquipmentUpdateData :=
  { name := none, serialNumber := none, department := none, assignedEmployee := none,
    maintenanceTeam := some (some team), purchaseDate := none, warrantyEndDate := none,
    location := none, isScrapped := none }

/-- The repository's table after `create` of one preventive request in stage New. -/
def sampleRepoRequests : List RepoRequestRow :=
  (repositoryCreate clockKolkata "REQ-000009" [] (sampleRequestData "New" none)).2

/-- A corrective request body that carries `overdue: true`. -/
def sampleCorrectiveOverdue : RequestData :=
  { sampleRequestData "New" none with requestType := "Corrective", overdue := some true }

/-- A preventive request row of the repository's table, scheduled for 25 December 2024
(day number 20082), in the given stage. -/
def sampleRepoRow (stage : String) : RepoRequestRow :=
  { id := "REQ-000003", subject := "Calibration check", request_type := "Preventive",
    equipment_id := "eq-1", assigned_technician_id := none,
    scheduled_date := some (dateOnly 20082), duration_hours := none, stage := stage,
    created_at := 20067, updated_at := 20067, completed_at := none }

/-- A store with two preventive requests: one scheduled for 31 January 2025 (day number
20119) and one for 28 February 2025 (day number 20147). -/
def calendarStore : Store :=
  { requests :=
      [{ sampleRequest "r-feb28" "NEW" with
          type := "PREVENTIVE", scheduled_date := some (dateOnly 20147) },
       { sampleRequest "r-jan31" "NEW" with
          type := "PREVENTIVE", scheduled_date := some (dateOnly 20119) }]
    equipment := [sampleEquipment]
    demo := [] }

/-- Noon UTC on 15 January 2025 (day number 20103) on a server on UTC. -/
def clockUtc : Clock := ⟨dateOnly 20103 + 43200000, 0⟩

/-- Noon UTC on 1 January 2025 (day number 20089) on a server on UTC. -/
def clockUtcNewYear : Clock := ⟨dateOnly 20089 + 43200000, 0⟩

/-- A store with two preventive requests, scheduled for 20 January 2025 (day number
20108) and for 5 January 2025 (day number 20093). -/
def januaryStore : Store :=
  { requests :=
      [{ sampleRequest "r-jan20" "NEW" with
          type := "PREVENTIVE", scheduled_date := some (dateOnly 20108) },
       { sampleRequest "r-jan05" "NEW" with
          type := "PREVENTIVE", scheduled_date := some (dateOnly 20093) }]
    equipment := [sampleEquipment]
    demo := [] }

/-- An update that asks for the scrap flag to be the given value and nothing else. -/
def setScrapFlag (flag : Bool) : EquipmentUpdateData :=
  { name := none, serialNumber := none, department := none, assignedEmployee := none,
    maintenanceTeam := none, purchaseDate := none, warrantyEndDate := none,
    location := none, isScrapped := some flag }

/-- Equipment calls on `sampleStore`: scrap `eq-1`, ask to unscrap it, move it to another
team, register a second machine. -/
def sampleEquipmentOps : List ((Nat → Bool) × Int × EquipmentOp) :=
  [(allUp, 1000, .scrap "eq-1"),
   (allUp, 2000, .update "eq-1" (setScrapFlag false)),
   (allUp, 3000, .update "eq-1" (moveToTeam "team-2")),
   (allUp, 4000, .create "eq-2"
      { name := "Hydraulic press", serialNumber := "HP-2024-007", department := "Manufacturing",
        assignedEmployee := none, maintenanceTeam := none, purchaseDate := 0,
        warrantyEndDate := 0, location := "Building B" })]

/-- The team of `sampleEquipment` with its two technicians. -/
def sampleTeam : MaintenanceTeam :=
  { id := "team-1", teamName := "Mechanical", technicians := ["tech-1", "tech-2"],
    createdAt := 20089, updatedAt := 20089 }

/-- A store whose only request carries the title-case stage `New` of `config/constants`
in its status column. -/
def seededStore : Store :=
  { requests := [sampleRequest "r-seed" "New"], equipment := [sampleEquipment], demo := [] }

/-! ## Lemmas on the tables -/

theorem findRequest_eq_find (rows : List RequestRow) (id : String) :
    findRequest rows id = rows.find? (fun r => r.id == id) := by
  induction rows with
  | nil => rfl
  | cons a t ih =>
    unfold findRequest at ih ⊢
    by_cases h : a.id = id <;> simp [List.filter_cons, List.find?_cons, h, ih]

theorem findEquipment_eq_find (rows : List EquipmentRow) (id : String) :
    findEquipment rows id = rows.find? (fun e => e.id == id) := by
  induction rows with
  | nil => rfl
  | cons a t ih =>
    unfold findEquipment at ih ⊢
    by_cases h : a.id = id <;> simp [List.filter_cons, List.find?_cons, h, ih]

theorem findRequest_map (f : RequestRow → RequestRow) (hf : ∀ r, (f r).id = r.id)
    (rows : List RequestRow) (id : String) :
    findRequest (rows.map f) id = (findRequest rows id).map f := by
  simp only [findRequest_eq_find]
  induction rows with
  | nil => rfl
  | cons a t ih =>
    by_cases h : a.id = id <;> simp [List.find?_cons, hf, h, ih]

theorem findEquipment_map (f : EquipmentRow → EquipmentRow) (hf : ∀ e, (f e).id = e.id)
    (rows : List EquipmentRow) (id : String) :
    findEquipment (rows.map f) id = (findEquipment rows id).map f := by
  simp only [findEquipment_eq_find]
  induction rows with
  | nil => rfl
  | cons a t ih =>
    by_cases h : a.id = id <;> simp [List.find?_cons, hf, h, ih]

theorem findRequest_id {rows : List RequestRow} {id : String} {r : RequestRow}
    (h : findRequest rows id = some r) : r.id = id := by
  rw [findRequest_eq_find] at h
  simpa using List.find?_some h

theorem findEquipment_id {rows : List EquipmentRow} {id : String} {e : EquipmentRow}
    (h : findEquipment rows id = some e) : e.id = id := by
  rw [findEquipment_eq_find] at h
  simpa using List.find?_some h

theorem findRequest_setStatus (st : String) (cd : Option Int) (now : Int) (id : String)
    (rows : List RequestRow) :
    findRequest (setStatus st cd now id rows) id =
      (findRequest rows id).map
        (fun r => { r with status := st, completed_date := cd, updated_at := now }) := by
  unfold setStatus
  rw [findRequest_map _ (by intro r; by_cases h : r.id = id <;> simp [h])]
  cases h : findRequest rows id with
  | none => rfl
  | some r => simp [findRequest_id h]

theorem findRequest_setStatus_ne (st : String) (cd : Option Int) (now : Int) (id id' : String)
    (hne : id' ≠ id) (rows : List RequestRow) :
    findRequest (setStatus st cd now id rows) id' = findRequest rows id' := by
  unfold setStatus
  rw [findRequest_map _ (by intro r; by_cases h : r.id = id <;> simp [h])]
  cases h : findRequest rows id' with
  | none => rfl
  | some r =>
    have := findRequest_id h
    have h2 : ¬ r.id = id := by rw [this]; exact hne
    simp [h2]

theorem findEquipment_markScrapped (now : Int) (id id' : String) (rows : List EquipmentRow) :
    findEquipment (markScrapped now id rows) id' =
      (findEquipment rows id').map
        (fun e => if e.id == id then { e with is_scrapped := true, updated_at := now } else e) := by
  unfold markScrapped
  exact findEquipment_map _ (by intro e; by_cases h : e.id = id <;> simp [h]) rows id'

theorem findRequest_append_single (rows : List RequestRow) (row : RequestRow) (id : String) :
    findRequest (rows ++ [row]) id =
      (findRequest rows id).or (if row.id = id then some row else none) := by
  simp only [findRequest_eq_find, List.find?_append]
  by_cases h : row.id = id <;> simp [List.find?_cons, h]

theorem findRequest_delete (rows : List RequestRow) (id id' : String) :
    findRequest (rows.filter (fun r => !(r.id == id))) id' =
      if id' = id then none else findRequest rows id' := by
  simp only [findRequest_eq_find]
  induction rows with
  | nil => simp
  | cons a t ih =>
    by_cases h : a.id = id
    · by_cases h' : id' = id
      · simp [List.filter_cons, h, h', ih]
      · have h3 : ¬ id = id' := fun e => h' e.symm
        simp [List.filter_cons, List.find?_cons, h, h', h3, ih]
    · by_cases h' : id' = id
      · subst h'
        simp [List.filter_cons, List.find?_cons, h, ih]
      · by_cases h2 : a.id = id' <;>
          simp [List.filter_cons, List.find?_cons, h, h', h2, ih]

/-! ## What each operation can do to the `maintenance_requests` table -/

theorem createMaintenanceRequest_requests (avail : Nat → Bool) (c : Clock) (requestId : String)
    (s : Store) (data : CreateData) (createdBy : String) :
    (createMaintenanceRequest avail c requestId s data createdBy).2.requests = s.requests ∨
    ∃ teamId, (createMaintenanceRequest avail c requestId s data createdBy).2.requests =
      s.requests ++ [newRequestRow c.now requestId data createdBy teamId] := by
  unfold createMaintenanceRequest
  split
  · exact Or.inl rfl
  · rename_i equipment _
    split
    · exact Or.inl rfl
    · split
      · exact Or.inl rfl
      · dsimp only
        split
        · right
          refine ⟨orElse (orElse data.teamId equipment.maintenance_team_id) none, ?_⟩
          split <;> rfl
        · exact Or.inl rfl

theorem updateMaintenanceRequest_requests (avail : Nat → Bool) (c : Clock) (s : Store)
    (id : String) (data : UpdateData) :
    (updateMaintenanceRequest avail c s id data).2.requests = s.requests ∨
    (updateMaintenanceRequest avail c s id data).2.requests =
      s.requests.map (fun r => if r.id == id then applyUpdate c.now data r else r) := by
  unfold updateMaintenanceRequest
  split
  · exact Or.inl rfl
  · split
    · exact Or.inl rfl
    · split
      · exact Or.inl rfl
      · split
        · exact Or.inr rfl
        · exact Or.inl rfl

theorem scrapEquipment_requests (up0 up1 : Bool) (now : Int) (s : Store) (id : String) :
    (scrapEquipment up0 up1 now s id).2.requests = s.requests := by
  unfold scrapEquipment
  cases up0
  · rfl
  · simp only [↓reduceIte]
    split <;> rfl

theorem writeStatus_requests (avail : Nat → Bool) (k : Nat) (now : Int) (s : Store)
    (id newStatus : String) :
    (writeStatus avail k now s id newStatus).2.requests = s.requests ∨
    (writeStatus avail k now s id newStatus).2.requests =
      setStatus newStatus (if newStatus = "REPAIRED" then some now else none) now id
        s.requests := by
  by_cases h : avail k = true <;> simp [writeStatus, h]

theorem updateStatus_requests (avail : Nat → Bool) (now : Int) (s : Store)
    (id newStatus : String) :
    (updateStatus avail now s id newStatus).2.requests = s.requests ∨
    ∃ request targets, getMaintenanceRequestById (avail 0) s id = .ok request ∧
      validTransitions request.status = some targets ∧ newStatus ∈ targets ∧
      (updateStatus avail now s id newStatus).2.requests =
        setStatus newStatus (if newStatus = "REPAIRED" then some now else none) now id
          s.requests := by
  unfold updateStatus
  split
  · exact Or.inl rfl
  · rename_i request hreq
    dsimp only
    split
    · exact Or.inl rfl
    · rename_i targets htar
      split
      · exact Or.inl rfl
      · rename_i hcont
        have hmem : newStatus ∈ targets := by simpa using hcont
        split
        · have hsc := scrapEquipment_requests (avail 1) (avail 2) now s request.equipment_id
          split
          · rename_i e s1 heq
            rw [heq] at hsc
            exact Or.inl hsc
          · rename_i e s1 heq
            rw [heq] at hsc
            simp only at hsc
            rcases writeStatus_requests avail 3 now s1 id newStatus with h | h
            · exact Or.inl (h.trans hsc)
            · exact Or.inr ⟨request, targets, hreq, htar, hmem, by rw [h, hsc]⟩
        · rcases writeStatus_requests avail 1 now s id newStatus with h | h
          · exact Or.inl h
          · exact Or.inr ⟨request, targets, hreq, htar, hmem, h⟩

theorem deleteMaintenanceRequest_requests (avail : Nat → Bool) (s : Store) (id : String) :
    (deleteMaintenanceRequest avail s id).2.requests = s.requests ∨
    ∃ request, getMaintenanceRequestById (avail 0) s id = .ok request ∧
      request.status = "NEW" ∧
      (deleteMaintenanceRequest avail s id).2.requests =
        s.requests.filter (fun r => !(r.id == id)) := by
  unfold deleteMaintenanceRequest
  split
  · exact Or.inl rfl
  · rename_i request hreq
    split
    · exact Or.inl rfl
    · rename_i hst
      split
      · exact Or.inr ⟨request, hreq, by simpa using hst, rfl⟩
      · exact Or.inl rfl

/-! ## One call moves a stored status along the table -/

theorem validTransitions_edge {a b : String} {targets : List String}
    (h : validTransitions a = some targets) (hb : b ∈ targets) :
    (a, b) ∈ transitionTable := by
  unfold validTransitions at h
  split at h
  · cases h; simp_all [transitionTable]
  · split at h
    · cases h; simp_all [transitionTable]
    · split at h
      · cases h; simp at hb
      · split at h
        · cases h; simp at hb
        · cases h

theorem getMaintenanceRequestById_up {s : Store} {id : String} {request : RequestRow}
    (h : getMaintenanceRequestById true s id = .ok request) :
    findRequest s.requests id = some request ∨ findRequest s.requests id = none := by
  unfold getMaintenanceRequestById at h
  cases hf : findRequest s.requests id with
  | none => exact Or.inr rfl
  | some r =>
    simp [hf] at h
    exact Or.inl (by rw [h])

theorem statusStep_step (c : Clock) (s : Store) (op : Op) (id : String) :
    StatusStep (statusOf s id) (statusOf (step c s op) id) := by
  cases op with
  | create requestId data createdBy =>
    rcases createMaintenanceRequest_requests allUp c requestId s data createdBy with h | ⟨t, h⟩
    · left; simp [statusOf, step, h]
    · simp only [statusOf, step, h, findRequest_append_single]
      cases hf : findRequest s.requests id with
      | some r => left; simp
      | none =>
        by_cases hid : requestId = id
        · right; right; right
          simp [newRequestRow, hid]
        · left; simp [newRequestRow, hid]
  | update uid data =>
    left
    rcases updateMaintenanceRequest_requests allUp c s uid data with h | h
    · simp [statusOf, step, h]
    · simp only [statusOf, step, h]
      rw [findRequest_map _ (by intro r; by_cases h : r.id = uid <;> simp [h, applyUpdate])]
      cases hf : findRequest s.requests id with
      | none => rfl
      | some r => by_cases h : r.id = uid <;> simp [h, applyUpdate]
  | setStatus uid newStatus =>
    rcases updateStatus_requests allUp c.now s uid newStatus with h | ⟨req, targets, hreq, htar, hmem, h⟩
    · left; simp [statusOf, step, h]
    · simp only [statusOf, step, h]
      by_cases hid : id = uid
      · subst hid
        rw [findRequest_setStatus]
        rcases getMaintenanceRequestById_up hreq with hf | hf
        · right; left
          exact ⟨req.status, newStatus, by simp [hf], by simp [hf],
            validTransitions_edge htar hmem⟩
        · left; simp [hf]
      · left; rw [findRequest_setStatus_ne _ _ _ _ _ hid]
  | delete uid =>
    rcases deleteMaintenanceRequest_requests allUp s uid with h | ⟨req, hreq, hst, h⟩
    · left; simp [statusOf, step, h]
    · simp only [statusOf, step, h, findRequest_delete]
      by_cases hid : id = uid
      · subst hid
        rcases getMaintenanceRequestById_up hreq with hf | hf
        · right; right; left
          simp [hf, hst]
        · left; simp [hf]
      · left; simp [hid]

theorem reaches_trans {a b c : String} (hab : Reaches a b) (hbc : Reaches b c) :
    Reaches a c := by
  simp only [Reaches, transitionTable, List.mem_cons, List.mem_singleton, Prod.mk.injEq,
    List.not_mem_nil, or_false] at *
  rcases hab with rfl | h | h
  · exact hbc
  · rcases h with ⟨rfl, rfl⟩ | ⟨rfl, rfl⟩ | ⟨rfl, rfl⟩ | ⟨rfl, rfl⟩ <;>
      rcases hbc with rfl | h | h <;> simp_all <;> rcases h with rfl | rfl <;> simp
  · rcases h with ⟨rfl, rfl⟩
    rcases hbc with rfl | h | h <;> simp_all

theorem reaches_antisymm {a b : String} (hab : Reaches a b) (hba : Reaches b a) : a = b := by
  simp only [Reaches, transitionTable, List.mem_cons, List.mem_singleton, Prod.mk.injEq,
    List.not_mem_nil, or_false] at *
  rcases hab with rfl | h | h
  · rfl
  · rcases h with ⟨rfl, rfl⟩ | ⟨rfl, rfl⟩ | ⟨rfl, rfl⟩ | ⟨rfl, rfl⟩ <;> simp_all
  · rcases h with ⟨rfl, rfl⟩
    simp_all

theorem statusTrace_cons (s : Store) (c : Clock) (op : Op) (rest : List (Clock × Op))
    (id : String) :
    statusTrace s ((c, op) :: rest) id =
      match statusOf s id with
      | some a => a :: statusTrace (step c s op) rest id
      | none => statusTrace (step c s op) rest id := by
  simp only [statusTrace, run, List.filterMap_cons]
  cases statusOf s id <;> rfl

theorem statusTrace_chain_aux (ops : List (Clock × Op)) (id : String) :
    ∀ s : Store, List.Chain' EdgeOrSame (statusTrace s ops id) ∧
      ∀ b ∈ (statusTrace s ops id).head?,
        (statusOf s id = none → b = "NEW") ∧ (∀ a, statusOf s id = some a → b = a) := by
  induction ops with
  | nil =>
    intro s
    simp only [statusTrace, run, List.filterMap_cons, List.filterMap_nil]
    cases h : statusOf s id <;> simp
  | cons cop rest ih =>
    intro s
    obtain ⟨c, op⟩ := cop
    obtain ⟨ihc, ihh⟩ := ih (step c s op)
    have hstep := statusStep_step c s op id
    rw [statusTrace_cons]
    cases h : statusOf s id with
    | none =>
      refine ⟨ihc, ?_⟩
      intro b hb
      refine ⟨fun _ => ?_, fun a ha => by cases ha⟩
      rw [h] at hstep
      rcases hstep with h1 | ⟨a, b', h1, _, _⟩ | ⟨h1, _⟩ | ⟨_, h1⟩
      · exact (ihh b hb).1 h1.symm
      · cases h1
      · cases h1
      · exact (ihh b hb).2 _ h1
    | some a =>
      refine ⟨?_, ?_⟩
      · rw [List.chain'_cons']
        refine ⟨?_, ihc⟩
        intro b hb
        rw [h] at hstep
        rcases hstep with h1 | ⟨a', b', h1, h2, h3⟩ | ⟨h1, h2⟩ | ⟨h1, _⟩
        · left; exact ((ihh b hb).2 a h1.symm).symm
        · cases h1
          right
          rw [(ihh b hb).2 b' h2]
          exact h3
        · cases h1
          left
          exact ((ihh b hb).1 h2).symm
        · cases h1
      · intro b hb
        simp only [List.head?_cons, Option.mem_def, Option.some.injEq] at hb
        refine ⟨fun h' => ?_, fun a' ha' => ?_⟩
        · cases h'
        · cases ha'
          exact hb.symm

theorem statusOf_updateMaintenanceRequest (avail : Nat → Bool) (c : Clock) (s : Store)
    (uid : String) (data : UpdateData) (id : String) :
    statusOf (updateMaintenanceRequest avail c s uid data).2 id = statusOf s id := by
  rcases updateMaintenanceRequest_requests avail c s uid data with h | h
  · simp [statusOf, h]
  · simp only [statusOf, h]
    rw [findRequest_map _ (by intro r; by_cases h : r.id = uid <;> simp [h, applyUpdate])]
    cases hf : findRequest s.requests id with
    | none => rfl
    | some r => by_cases h : r.id = uid <;> simp [h, applyUpdate]

theorem terminal_status_kept (ops : List (Clock × Op)) (id a : String)
    (ha : a = "REPAIRED" ∨ a = "SCRAP") :
    ∀ s : Store, statusOf s id = some a → ∀ st ∈ run s ops, statusOf st id = some a := by
  induction ops with
  | nil =>
    intro s hs st hst
    simp only [run, List.mem_singleton] at hst
    rw [hst]; exact hs
  | cons cop rest ih =>
    intro s hs st hst
    obtain ⟨c, op⟩ := cop
    simp only [run, List.mem_cons] at hst
    rcases hst with rfl | hst
    · exact hs
    · refine ih (step c s op) ?_ st hst
      have hstep := statusStep_step c s op id
      rw [hs] at hstep
      rcases hstep with h1 | ⟨a', b', h1, _, h3⟩ | ⟨h1, _⟩ | ⟨h1, _⟩
      · exact h1.symm
      · cases h1
        rcases ha with rfl | rfl <;> simp [transitionTable] at h3
      · cases h1
        rcases ha with h | h <;> simp at h
      · cases h1

/-! ## The parts of `updateStatus` -/

theorem getMaintenanceRequestById_error {up : Bool} {s : Store} {id : String} {e : ApiError}
    (h : getMaintenanceRequestById up s id = .error e) :
    e = ⟨"Maintenance request not found", 404⟩ := by
  unfold getMaintenanceRequestById at h
  split at h
  · cases h
  · split at h
    · cases h
    · cases h; rfl

theorem scrapEquipment_error {up0 up1 : Bool} {now : Int} {s s1 : Store} {id : String}
    {e : ApiError} (h : scrapEquipment up0 up1 now s id = (.error e, s1)) :
    e = ⟨"Failed to scrap equipment", 500⟩ := by
  unfold scrapEquipment at h
  cases up0
  · simp at h; exact h.1.symm
  · simp only [↓reduceIte] at h
    split at h
    · simp at h
    · simp at h; exact h.1.symm

theorem scrapEquipment_ok {up0 up1 : Bool} {now : Int} {s s1 : Store} {id : String}
    {e : EquipmentRow} (h : scrapEquipment up0 up1 now s id = (.ok e, s1)) :
    s1 = { s with equipment := markScrapped now id s.equipment } ∧
      findEquipment s1.equipment id = some e := by
  unfold scrapEquipment at h
  cases up0
  · simp at h
  · simp only [↓reduceIte] at h
    split at h
    · rename_i e' hget
      simp only [Prod.mk.injEq, Except.ok.injEq] at h
      obtain ⟨he, hs⟩ := h
      subst hs; subst he
      refine ⟨rfl, ?_⟩
      unfold getEquipmentById at hget
      cases up1
      · simp at hget
      · simp only [↓reduceIte] at hget
        split at hget
        · rename_i e2 hf
          cases hget
          exact hf
        · cases hget
    · simp at h

theorem writeStatus_equipment (avail : Nat → Bool) (k : Nat) (now : Int) (s : Store)
    (id newStatus : String) :
    (writeStatus avail k now s id newStatus).2.equipment = s.equipment := by
  by_cases h : avail k = true <;> simp [writeStatus, h]

theorem writeStatus_demo (avail : Nat → Bool) (k : Nat) (now : Int) (s : Store)
    (id newStatus : String) :
    (writeStatus avail k now s id newStatus).2.demo = s.demo := by
  by_cases h : avail k = true <;> simp [writeStatus, h]

theorem writeStatus_error_status {avail : Nat → Bool} {k : Nat} {now : Int} {s : Store}
    {id newStatus : String} {e : ApiError}
    (h : (writeStatus avail k now s id newStatus).1 = .error e) :
    e.status = 500 ∨ e.status = 404 := by
  by_cases hk : avail k = true
  · simp only [writeStatus, hk, ↓reduceIte] at h
    right
    rw [getMaintenanceRequestById_error h]
  · simp only [writeStatus, hk] at h
    left
    simp at h
    rw [← h]

theorem writeStatus_ok {avail : Nat → Bool} {k : Nat} {now : Int} {s : Store}
    {id newStatus : String} {ret : RequestRow}
    (h : (writeStatus avail k now s id newStatus).1 = .ok ret) :
    avail k = true ∧
    (writeStatus avail k now s id newStatus).2.requests =
      setStatus newStatus (if newStatus = "REPAIRED" then some now else none) now id
        s.requests ∧
    getMaintenanceRequestById (avail (k + 1)) (writeStatus avail k now s id newStatus).2 id =
      .ok ret := by
  by_cases hk : avail k = true
  · refine ⟨hk, ?_, ?_⟩
    · simp [writeStatus, hk]
    · simp only [writeStatus, hk, ↓reduceIte] at h ⊢
      exact h
  · simp [writeStatus, hk] at h

/-- The paths through `updateStatus`, one disjunct per exit. -/
theorem updateStatus_cases (avail : Nat → Bool) (now : Int) (s : Store)
    (id newStatus : String) :
    (∃ e, getMaintenanceRequestById (avail 0) s id = .error e ∧
        updateStatus avail now s id newStatus = (.error e, s)) ∨
    (∃ request, getMaintenanceRequestById (avail 0) s id = .ok request ∧
        validTransitions request.status = none ∧
        updateStatus avail now s id newStatus =
          (.error ⟨"Failed to update maintenance request status", 500⟩, s)) ∨
    (∃ request targets, getMaintenanceRequestById (avail 0) s id = .ok request ∧
        validTransitions request.status = some targets ∧ newStatus ∉ targets ∧
        updateStatus avail now s id newStatus =
          (.error ⟨invalidTransitionMessage request.status newStatus targets, 400⟩, s)) ∨
    (∃ request targets e s1, getMaintenanceRequestById (avail 0) s id = .ok request ∧
        validTransitions request.status = some targets ∧ newStatus ∈ targets ∧
        newStatus = "SCRAP" ∧
        scrapEquipment (avail 1) (avail 2) now s request.equipment_id = (.error e, s1) ∧
        updateStatus avail now s id newStatus = (.error e, s1)) ∨
    (∃ request targets eq s1, getMaintenanceRequestById (avail 0) s id = .ok request ∧
        validTransitions request.status = some targets ∧ newStatus ∈ targets ∧
        newStatus = "SCRAP" ∧
        scrapEquipment (avail 1) (avail 2) now s request.equipment_id = (.ok eq, s1) ∧
        updateStatus avail now s id newStatus = writeStatus avail 3 now s1 id newStatus) ∨
    (∃ request targets, getMaintenanceRequestById (avail 0) s id = .ok request ∧
        validTransitions request.status = some targets ∧ newStatus ∈ targets ∧
        newStatus ≠ "SCRAP" ∧
        updateStatus avail now s id newStatus = writeStatus avail 1 now s id newStatus) := by
  cases hreq : getMaintenanceRequestById (avail 0) s id with
  | error e =>
    left
    exact ⟨e, rfl, by simp [updateStatus, hreq]⟩
  | ok request =>
    right
    cases htar : validTransitions request.status with
    | none =>
      left
      exact ⟨request, rfl, htar, by simp [updateStatus, hreq, htar]⟩
    | some targets =>
      right
      by_cases hmem : newStatus ∈ targets
      · right
        by_cases hsc : newStatus = "SCRAP"
        · cases hscrap : scrapEquipment (avail 1) (avail 2) now s request.equipment_id with
          | mk res s1 =>
            cases res with
            | error e =>
              left
              refine ⟨request, targets, e, s1, rfl, htar, hmem, hsc, hscrap, ?_⟩
              subst hsc
              simp [updateStatus, hreq, htar, hmem, hscrap]
            | ok eq =>
              right; left
              refine ⟨request, targets, eq, s1, rfl, htar, hmem, hsc, hscrap, ?_⟩
              subst hsc
              simp [updateStatus, hreq, htar, hmem, hscrap]
        · right; right
          exact ⟨request, targets, rfl, htar, hmem, hsc,
            by simp [updateStatus, hreq, htar, hmem, hsc]⟩
      · left
        exact ⟨request, targets, rfl, htar, hmem, by simp [updateStatus, hreq, htar, hmem]⟩

theorem mem_markScrapped {now : Int} {id : String} {rows : List EquipmentRow}
    {e : EquipmentRow} (h : e ∈ markScrapped now id rows) (he : e.id = id) :
    e.is_scrapped = true := by
  unfold markScrapped at h
  rw [List.mem_map] at h
  obtain ⟨e0, _, rfl⟩ := h
  by_cases h0 : e0.id = id
  · simp [h0]
  · simp [h0] at he

theorem scrapEquipment_ok_scrapped {up0 up1 : Bool} {now : Int} {s s1 : Store} {id : String}
    {e : EquipmentRow} (h : scrapEquipment up0 up1 now s id = (.ok e, s1)) :
    Scrapped s1 id := by
  obtain ⟨hs1, hfind⟩ := scrapEquipment_ok h
  have hall : ∀ e ∈ s1.equipment, e.id = id → e.is_scrapped = true := by
    intro e he hid
    rw [hs1] at he
    exact mem_markScrapped he hid
  refine ⟨⟨e, hfind, ?_⟩, hall⟩
  have hmem : e ∈ s1.equipment := by
    rw [findEquipment_eq_find] at hfind
    exact List.mem_of_find?_eq_some hfind
  exact hall e hmem (findEquipment_id hfind)

theorem scrapEquipment_down {up1 : Bool} {now : Int} {s : Store} {id : String} :
    scrapEquipment false up1 now s id = (.error ⟨"Failed to scrap equipment", 500⟩, s) := by
  simp [scrapEquipment]

theorem updateStatus_error_400 {avail : Nat → Bool} {now : Int} {s : Store}
    {id newStatus : String} {e : ApiError}
    (he : (updateStatus avail now s id newStatus).1 = .error e) (h400 : e.status = 400) :
    (updateStatus avail now s id newStatus).2 = s := by
  rcases updateStatus_cases avail now s id newStatus with
    ⟨e0, _, h⟩ | ⟨_, _, _, h⟩ | ⟨_, _, _, _, _, h⟩ | ⟨_, _, e1, s1, _, _, _, _, hsc, h⟩ |
    ⟨_, _, _, s1, _, _, _, _, _, h⟩ | ⟨_, _, _, _, _, _, h⟩
  · rw [h]
  · rw [h]
  · rw [h]
  · rw [h] at he
    simp only [Except.error.injEq] at he
    subst he
    rw [scrapEquipment_error hsc] at h400
    simp at h400
  · rw [h] at he
    rcases writeStatus_error_status he with h' | h' <;> omega
  · rw [h] at he
    rcases writeStatus_error_status he with h' | h' <;> omega

theorem getMaintenanceRequestById_found {s : Store} {id : String} {r : RequestRow}
    (hr : findRequest s.requests id = some r) :
    getMaintenanceRequestById true s id = .ok r := by
  simp [getMaintenanceRequestById, hr]

/-! ## Deletion and creation -/

theorem deleteMaintenanceRequest_error {avail : Nat → Bool} {s : Store} {id : String}
    {e : ApiError} (h : (deleteMaintenanceRequest avail s id).1 = .error e) :
    (deleteMaintenanceRequest avail s id).2 = s := by
  unfold deleteMaintenanceRequest at h ⊢
  split
  · rfl
  · rename_i request hreq
    simp only [hreq] at h
    split
    · rfl
    · rename_i hst
      simp only [hst, ↓reduceIte] at h
      split
      · rename_i h1
        simp [h1] at h
      · rfl

/-! ## Calendar days -/

theorem setHoursZero_eq (tz t : Int) :
    setHoursZero tz t = localDay tz t * msPerDay - tz := by
  simp only [setHoursZero, localDay, msPerDay]
  omega

theorem isPastDate_iff_localDay (c : Clock) (d : Int) :
    isPastDate c d = true ↔ localDay c.tzOffsetMs d < localDay c.tzOffsetMs c.now := by
  simp only [isPastDate, setHoursZero, localDay, msPerDay, decide_eq_true_eq]
  omega

theorem isDateInPast_eq_isPastDate (c : Clock) (d : Int) : isDateInPast c d = isPastDate c d :=
  rfl

theorem localDay_dateOnly (tz day : Int) :
    localDay tz (dateOnly day) = day + tz / msPerDay := by
  simp only [localDay, dateOnly, msPerDay]
  omega

/-- A date-only text counts as past exactly when its day, shifted by the whole days of
the zone offset (minus one west of UTC), is before the server's calendar day. -/
theorem isPastDate_dateOnly (c : Clock) (day : Int) :
    isPastDate c (dateOnly day) = true ↔
      day + c.tzOffsetMs / msPerDay < localDay c.tzOffsetMs c.now := by
  rw [isPastDate_iff_localDay, localDay_dateOnly]

/-! ## The request a creation produces -/

theorem demoGet_demoSet (demo : List RequestRow) (x : RequestRow) :
    demoGet (demoSet demo x) x.id = some x := by
  unfold demoSet demoGet
  split
  · rename_i hany
    induction demo with
    | nil => simp at hany
    | cons a t ih =>
      by_cases h : a.id = x.id
      · simp [List.find?_cons, h]
      · have hany' : (t.any fun r => r.id == x.id) = true := by
          simpa [h] using hany
        simpa [List.find?_cons, h] using ih hany'
  · rename_i hany
    have hnone : demo.find? (fun r => r.id == x.id) = none := by
      rw [List.find?_eq_none]
      intro r hr hid
      exact hany (List.any_eq_true.mpr ⟨r, hr, hid⟩)
    simp [List.find?_append, hnone]

/-- The paths through `createMaintenanceRequest` that return a request. -/
theorem createMaintenanceRequest_ok {avail : Nat → Bool} {c : Clock} {requestId : String}
    {s : Store} {data : CreateData} {createdBy : String} {r : RequestRow}
    (h : (createMaintenanceRequest avail c requestId s data createdBy).1 = .ok r) :
    ∃ e, getEquipmentById (avail 0) s data.equipmentId = .ok e ∧ e.is_scrapped = false ∧
      ((avail 1 = true ∧
          getMaintenanceRequestById (avail 2)
            { s with requests := s.requests ++
                [newRequestRow c.now requestId data createdBy
                  (orElse (orElse data.teamId e.maintenance_team_id) none)] } requestId = .ok r ∧
          (createMaintenanceRequest avail c requestId s data createdBy).2.requests =
            s.requests ++ [newRequestRow c.now requestId data createdBy
              (orElse (orElse data.teamId e.maintenance_team_id) none)] ∧
          (createMaintenanceRequest avail c requestId s data createdBy).2.demo = s.demo) ∨
        (r = { newRequestRow c.now requestId data createdBy
                  (orElse (orElse data.teamId e.maintenance_team_id) none) with
                equipment_name := some e.name, serial_number := some e.serial_number } ∧
          demoGet (createMaintenanceRequest avail c requestId s data createdBy).2.demo
            requestId = some r)) := by
  unfold createMaintenanceRequest at h ⊢
  cases he : getEquipmentById (avail 0) s data.equipmentId with
  | error e0 => simp [he] at h
  | ok e =>
    simp only [he] at h ⊢
    refine ⟨e, rfl, ?_⟩
    cases hs : e.is_scrapped with
    | true => simp [hs] at h
    | false =>
      simp only [hs, Bool.false_eq_true, ↓reduceIte] at h ⊢
      refine ⟨trivial, ?_⟩
      split at h
      · simp at h
      · rename_i hpast
        simp only [hpast, Bool.false_eq_true, ↓reduceIte]
        cases h1 : avail 1 with
        | false =>
          right
          simp only [h1, Bool.false_eq_true, ↓reduceIte] at h ⊢
          simp only [Except.ok.injEq] at h
          subst h
          exact ⟨rfl, demoGet_demoSet _ _⟩
        | true =>
          simp only [h1, ↓reduceIte] at h ⊢
          split at h
          · rename_i r0 hget
            left
            simp only [Except.ok.injEq] at h
            subst h
            simp [hget]
          · rename_i e1 hget
            right
            simp only [Except.ok.injEq] at h
            subst h
            simp only [hget]
            exact ⟨trivial, demoGet_demoSet _ _⟩

/-- With a fresh id, the request a successful creation returns is the row it built
from the clock, the body and the looked-up equipment (with the two equipment columns
added when it went to the demo storage), and that request is what the store then
holds under the id. -/
theorem createMaintenanceRequest_created {avail : Nat → Bool} {c : Clock} {requestId : String}
    {s : Store} {data : CreateData} {createdBy : String} {r : RequestRow}
    (hfresh : findRequest s.requests requestId = none)
    (hdemo : demoGet s.demo requestId = none)
    (h : (createMaintenanceRequest avail c requestId s data createdBy).1 = .ok r) :
    ∃ e, findEquipment s.equipment data.equipmentId = some e ∧ e.is_scrapped = false ∧
      (r = newRequestRow c.now requestId data createdBy
            (orElse (orElse data.teamId e.maintenance_team_id) none) ∨
       r = { newRequestRow c.now requestId data createdBy
                (orElse (orElse data.teamId e.maintenance_team_id) none) with
              equipment_name := some e.name, serial_number := some e.serial_number }) ∧
      (findRequest (createMaintenanceRequest avail c requestId s data createdBy).2.requests
          requestId = some r ∨
       demoGet (createMaintenanceRequest avail c requestId s data createdBy).2.demo
          requestId = some r) := by
  obtain ⟨e, he, hs, hcase⟩ := createMaintenanceRequest_ok h
  have hfe : findEquipment s.equipment data.equipmentId = some e := by
    unfold getEquipmentById at he
    split at he
    · split at he
      · rename_i e' hf
        cases he
        exact hf
      · cases he
    · cases he
  refine ⟨e, hfe, hs, ?_⟩
  rcases hcase with ⟨_, hget, hreqs, hdm⟩ | ⟨hr, hstored⟩
  · have hrow : findRequest (s.requests ++
        [newRequestRow c.now requestId data createdBy
          (orElse (orElse data.teamId e.maintenance_team_id) none)]) requestId =
        some (newRequestRow c.now requestId data createdBy
          (orElse (orElse data.teamId e.maintenance_team_id) none)) := by
      rw [findRequest_append_single, hfresh]
      simp [newRequestRow]
    cases h2 : avail 2 with
    | false =>
      simp [getMaintenanceRequestById, h2, hdemo] at hget
    | true =>
      rw [h2, getMaintenanceRequestById_found hrow] at hget
      cases hget
      exact ⟨Or.inl rfl, Or.inl (by rw [hreqs]; exact hrow)⟩
  · exact ⟨Or.inr hr, Or.inr hstored⟩

/-! ## Equipment updates and the two ways of reading a request -/

theorem writeEquipment_requests (avail : Nat → Bool) (k : Nat) (now : Int) (s : Store)
    (id : String) (data : EquipmentUpdateData) (equipment : EquipmentRow) :
    (writeEquipment avail k now s id data equipment).2.requests = s.requests ∧
    (writeEquipment avail k now s id data equipment).2.demo = s.demo := by
  unfold writeEquipment
  split
  · exact ⟨rfl, rfl⟩
  · split
    · exact ⟨rfl, rfl⟩
    · exact ⟨rfl, rfl⟩

theorem updateEquipment_requests (avail : Nat → Bool) (now : Int) (s : Store) (id : String)
    (data : EquipmentUpdateData) :
    (updateEquipment avail now s id data).2.requests = s.requests ∧
    (updateEquipment avail now s id data).2.demo = s.demo := by
  unfold updateEquipment
  split
  · exact ⟨rfl, rfl⟩
  · split
    · exact ⟨rfl, rfl⟩
    · split
      · split
        · split
          · exact ⟨rfl, rfl⟩
          · exact writeEquipment_requests _ _ _ _ _ _ _
        · exact ⟨rfl, rfl⟩
      · exact writeEquipment_requests _ _ _ _ _ _ _

theorem orElse_none_eq_some {a : Option String} {t : String} (h : orElse a none = some t) :
    a = some t := by
  unfold orElse at h
  split at h
  · split at h
    · cases h
    · exact h
  · cases h

theorem calculateOverdue_keeps (c : Clock) (m : MaintenanceRequest) :
    (m.calculateOverdue c).2.maintenanceTeamId = m.maintenanceTeamId ∧
    (m.calculateOverdue c).2.category = m.category ∧
    (m.calculateOverdue c).2.stage = m.stage ∧
    (m.calculateOverdue c).2.id = m.id := by
  unfold MaintenanceRequest.calculateOverdue
  split <;> exact ⟨rfl, rfl, rfl, rfl⟩

theorem mapToModel_team (c : Clock) (generatedId : String) (row : JoinedRow) :
    (mapToModel c generatedId row).maintenanceTeamId = row.maintenance_team_id ∧
    (mapToModel c generatedId row).category = orElse row.category none := by
  unfold mapToModel
  simp only [(calculateOverdue_keeps c _).1, (calculateOverdue_keeps c _).2.1]
  cases h1 : orElse row.maintenance_team_id none with
  | none => cases h2 : orElse row.category none <;> simp [MaintenanceRequest.construct]
  | some t =>
    have ht := orElse_none_eq_some h1
    cases h2 : orElse row.category none <;> simp [MaintenanceRequest.construct, ht]

theorem findById_eq (c : Clock) (generatedId : String) (requests : List RepoRequestRow)
    (equipment : List EquipmentRow) (id : String) :
    findById c generatedId requests equipment id =
      (findRepoRequest requests id).map (fun r =>
        mapToModel c generatedId
          ⟨r, (findEquipment equipment r.equipment_id).bind (fun e => e.maintenance_team_id),
            (findEquipment equipment r.equipment_id).bind (fun e => e.category)⟩) := by
  unfold findById findRepoRequest baseSelect
  induction requests with
  | nil => rfl
  | cons a t ih =>
    simp only [List.flatMap_cons, List.filter_append, List.find?_cons]
    by_cases h : a.id = id
    · simp only [h, beq_self_eq_true]
      cases hes : equipment.filter (fun e => e.id == a.equipment_id) with
      | nil =>
        have hfe : findEquipment equipment a.equipment_id = none := by
          unfold findEquipment; rw [hes]; rfl
        simp [h, hfe]
      | cons e es =>
        have hfe : findEquipment equipment a.equipment_id = some e := by
          unfold findEquipment; rw [hes]; rfl
        simp [h, hfe]
    · have hb : (a.id == id) = false := by simpa using h
      simp only [hb]
      have hnil : (match equipment.filter (fun (e : EquipmentRow) => e.id == a.equipment_id) with
          | [] => [(⟨a, none, none⟩ : JoinedRow)]
          | es => es.map (fun (e : EquipmentRow) =>
              (⟨a, e.maintenance_team_id, e.category⟩ : JoinedRow))).filter
            (fun (j : JoinedRow) => j.mr.id == id) = [] := by
        cases equipment.filter (fun (e : EquipmentRow) => e.id == a.equipment_id) with
        | nil => simp [hb]
        | cons e es => simp [List.filter_eq_nil_iff, h]
      rw [hnil, List.nil_append]
      exact ih

/-- The date `toISOString` prints for the local midnight of day `day`: the same day at
or west of UTC, the day before east of UTC. -/
theorem utcDay_local_midnight (day tz : Int) :
    utcDay (day * msPerDay - tz) = day + (-tz) / msPerDay := by
  simp only [utcDay, msPerDay]
  omega

/-! ## Validity of the dates of `getCalendar` -/

theorem daysBeforeMonth_bounds (leap : Bool) (mn : Int) :
    0 ≤ daysBeforeMonth leap mn ∧ daysBeforeMonth leap mn ≤ 335 ∧
    (mn = 0 → daysBeforeMonth leap mn = 0) := by
  by_cases h0 : mn = 0
  · subst h0; cases leap <;> decide
  by_cases h1 : mn = 1
  · subst h1; cases leap <;> decide
  by_cases h2 : mn = 2
  · subst h2; cases leap <;> decide
  by_cases h3 : mn = 3
  · subst h3; cases leap <;> decide
  by_cases h4 : mn = 4
  · subst h4; cases leap <;> decide
  by_cases h5 : mn = 5
  · subst h5; cases leap <;> decide
  by_cases h6 : mn = 6
  · subst h6; cases leap <;> decide
  by_cases h7 : mn = 7
  · subst h7; cases leap <;> decide
  by_cases h8 : mn = 8
  · subst h8; cases leap <;> decide
  by_cases h9 : mn = 9
  · subst h9; cases leap <;> decide
  by_cases h10 : mn = 10
  · subst h10; cases leap <;> decide
  have h11 : daysBeforeMonth leap mn = 334 + (if leap = true then 1 else 0) := by
    simp [daysBeforeMonth, h0, h1, h2, h3, h4, h5, h6, h7, h8, h9, h10]
  rw [h11]
  cases leap <;> simp [h0]

theorem newDateLocal_valid {tz year monthIndex day : Int}
    (htz : -msPerDay ≤ tz ∧ tz ≤ msPerDay) (hy : 2020 ≤ year ∧ year ≤ 275759)
    (hm : 0 ≤ monthIndex ∧ monthIndex ≤ 12) (hd : 0 ≤ day ∧ day ≤ 1) :
    ∃ t, newDateLocal tz year monthIndex day = some t := by
  obtain ⟨h0, h1, h2⟩ :=
    daysBeforeMonth_bounds (isLeapYear (year + monthIndex / 12)) (monthIndex % 12)
  have hyr : ¬ (0 ≤ year ∧ year ≤ 99) := by omega
  simp only [newDateLocal, hyr, ↓reduceIte, makeDay]
  generalize daysBeforeMonth (isLeapYear (year + monthIndex / 12)) (monthIndex % 12) = b
    at h0 h1 h2 ⊢
  simp only [msPerDay] at htz
  have hb : monthIndex = 12 → b = 0 := fun h => h2 (by omega)
  have hrange : -maxTimeValue ≤ (dayFromYear (year + monthIndex / 12) + b + day - 1) * msPerDay - tz ∧
      (dayFromYear (year + monthIndex / 12) + b + day - 1) * msPerDay - tz ≤ maxTimeValue := by
    simp only [dayFromYear, msPerDay, maxTimeValue]
    by_cases h12 : monthIndex = 12
    · have := hb h12
      omega
    · omega
  rw [if_pos hrange]
  exact ⟨_, rfl⟩

theorem calendarRange_valid {tz month year : Int}
    (htz : -msPerDay ≤ tz ∧ tz ≤ msPerDay) (hy : 2020 ≤ year ∧ year ≤ 275759)
    (hm : 1 ≤ month ∧ month ≤ 12) :
    ∃ range, calendarRange tz month year = some range := by
  obtain ⟨t1, h1⟩ := @newDateLocal_valid tz year (month - 1) 1 htz hy (by omega) (by omega)
  obtain ⟨t2, h2⟩ := @newDateLocal_valid tz year month 0 htz hy (by omega) (by omega)
  refine ⟨(utcDay t1, utcDay t2), ?_⟩
  unfold calendarRange
  rw [h1, h2]

theorem getCalendar_of_range {up : Bool} {c : Clock} {s : Store} {month year : Int}
    {range : Int × Int} (hm : 1 ≤ month ∧ month ≤ 12) (hy : 2020 ≤ year)
    (hr : calendarRange c.tzOffsetMs month year = some range) :
    ∃ res, getCalendar up c s month year = .ok res ∧ res.month = month ∧ res.year = year ∧
      res.count = res.requests.length := by
  have h1 : ¬ (month < 1 ∨ month > 12) := by omega
  have h2 : ¬ year < 2020 := by omega
  unfold getCalendar
  rw [if_neg h1, if_neg h2, hr]
  cases up
  · exact ⟨_, rfl, rfl, rfl, rfl⟩
  · exact ⟨_, rfl, rfl, rfl, rfl⟩

theorem getCalendar_error_400 {up : Bool} {c : Clock} {s : Store} {month year : Int}
    {e : ApiError} (he : getCalendar up c s month year = .error e) (h400 : e.status = 400) :
    month < 1 ∨ month > 12 ∨ year < 2020 := by
  by_contra hcon
  have h1 : ¬ (month < 1 ∨ month > 12) := by omega
  have h2 : ¬ year < 2020 := by omega
  unfold getCalendar at he
  rw [if_neg h1, if_neg h2] at he
  cases hr : calendarRange c.tzOffsetMs month year with
  | none =>
    rw [hr] at he
    simp only [Except.error.injEq] at he
    rw [← he] at h400
    simp at h400
  | some range =>
    rw [hr] at he
    cases up <;> simp at he

/-! ## What `getCalendar` returns -/

theorem calendarWhere_iff (start stop : Int) (r : RequestRow) :
    calendarWhere start stop r = true ↔
      ∃ d, r.scheduled_date = some d ∧ r.type = "PREVENTIVE" ∧ start ≤ utcDay d ∧
        utcDay d ≤ stop ∧ r.status ≠ "SCRAP" := by
  unfold calendarWhere
  cases hd : r.scheduled_date with
  | none => simp
  | some d =>
    simp only [Bool.and_eq_true, beq_iff_eq, decide_eq_true_eq, bne_iff_ne, ne_eq,
      Option.some.injEq, exists_eq_left']
    tauto

theorem calendarQuery_eq (s : Store) (start stop : Int) :
    calendarQuery s start stop =
      ((s.requests.filter (calendarWhere start stop)).insertionSort
        (fun a b => scheduledKey a ≤ scheduledKey b)).map (calendarJoin s) :=
  rfl

theorem mem_calendarQuery (s : Store) (start stop : Int) (x : RequestRow) :
    x ∈ calendarQuery s start stop ↔
      ∃ r0, r0 ∈ s.requests ∧ calendarWhere start stop r0 = true ∧ calendarJoin s r0 = x := by
  rw [calendarQuery_eq, List.mem_map]
  constructor
  · rintro ⟨r0, hmem, hx⟩
    rw [(List.perm_insertionSort _ _).mem_iff, List.mem_filter] at hmem
    exact ⟨r0, hmem.1, hmem.2, hx⟩
  · rintro ⟨r0, hmem, hw, hx⟩
    refine ⟨r0, ?_, hx⟩
    rw [(List.perm_insertionSort _ _).mem_iff, List.mem_filter]
    exact ⟨hmem, hw⟩

theorem calendarJoin_scheduled (s : Store) (r : RequestRow) :
    (calendarJoin s r).scheduled_date = r.scheduled_date ∧ (calendarJoin s r).type = r.type ∧
    (calendarJoin s r).status = r.status ∧ (calendarJoin s r).id = r.id :=
  ⟨rfl, rfl, rfl, rfl⟩

theorem getCalendar_ok {up : Bool} {c : Clock} {s : Store} {month year : Int}
    {res : CalendarResult} (h : getCalendar up c s month year = .ok res) :
    ∃ start stop, calendarRange c.tzOffsetMs month year = some (start, stop) ∧
      res.month = month ∧ res.year = year ∧ res.count = res.requests.length ∧
      res.requests =
        if up then
          (calendarQuery s start stop).filter
            (fun r => !isPastDate c (r.scheduled_date.getD 0))
        else [] := by
  unfold getCalendar at h
  split at h
  · cases h
  · split at h
    · cases h
    · cases hr : calendarRange c.tzOffsetMs month year with
      | none =>
        rw [hr] at h
        cases h
      | some range =>
        obtain ⟨start, stop⟩ := range
        rw [hr] at h
        refine ⟨start, stop, rfl, ?_⟩
        cases up
        · simp only [Bool.false_eq_true, ↓reduceIte, Except.ok.injEq] at h
          subst h
          exact ⟨rfl, rfl, rfl, rfl⟩
        · simp only [↓reduceIte, Except.ok.injEq] at h
          subst h
          exact ⟨rfl, rfl, rfl, rfl⟩

theorem scheduledKey_sorted (s : Store) (start stop : Int) :
    List.Pairwise (fun a b => scheduledKey a ≤ scheduledKey b) (calendarQuery s start stop) := by
  rw [calendarQuery_eq, List.pairwise_map]
  haveI : IsTotal RequestRow (fun a b => scheduledKey a ≤ scheduledKey b) :=
    ⟨fun a b => le_total (scheduledKey a) (scheduledKey b)⟩
  haveI : IsTrans RequestRow (fun a b => scheduledKey a ≤ scheduledKey b) :=
    ⟨fun _ _ _ h1 h2 => le_trans h1 h2⟩
  exact List.sorted_insertionSort (fun a b => scheduledKey a ≤ scheduledKey b) _

theorem getCalendar_mem {up : Bool} {c : Clock} {s : Store} {month year : Int}
    {res : CalendarResult} (h : getCalendar up c s month year = .ok res) (r : RequestRow) :
    r ∈ res.requests ↔
      up = true ∧ ∃ start stop r0 d, calendarRange c.tzOffsetMs month year = some (start, stop) ∧
        r0 ∈ s.requests ∧ calendarWhere start stop r0 = true ∧ r0.scheduled_date = some d ∧
        isPastDate c d = false ∧ calendarJoin s r0 = r := by
  obtain ⟨start, stop, hrange, _, _, _, hreq⟩ := getCalendar_ok h
  rw [hreq]
  cases up
  · simp
  · simp only [↓reduceIte, List.mem_filter, mem_calendarQuery, true_and]
    constructor
    · rintro ⟨⟨r0, hmem, hw, hj⟩, hnp⟩
      obtain ⟨d, hd, _⟩ := (calendarWhere_iff start stop r0).mp hw
      refine ⟨start, stop, r0, d, hrange, hmem, hw, hd, ?_, hj⟩
      rw [← hj, (calendarJoin_scheduled s r0).1, hd] at hnp
      simpa using hnp
    · rintro ⟨start', stop', r0, d, hrange', hmem, hw, hd, hnp, hj⟩
      rw [hrange] at hrange'
      simp only [Option.some.injEq, Prod.mk.injEq] at hrange'
      obtain ⟨rfl, rfl⟩ := hrange'
      refine ⟨⟨r0, hmem, hw, hj⟩, ?_⟩
      rw [← hj, (calendarJoin_scheduled s r0).1, hd]
      simp [hnp]

theorem newDateLocal_value {tz year monthIndex day : Int}
    (htz : -msPerDay ≤ tz ∧ tz ≤ msPerDay) (hy : 2020 ≤ year ∧ year ≤ 275759)
    (hm : 0 ≤ monthIndex ∧ monthIndex ≤ 12) (hd : 0 ≤ day ∧ day ≤ 1) :
    newDateLocal tz year monthIndex day = some (makeDay year monthIndex day * msPerDay - tz) := by
  obtain ⟨h0, h1, h2⟩ :=
    daysBeforeMonth_bounds (isLeapYear (year + monthIndex / 12)) (monthIndex % 12)
  have hyr : ¬ (0 ≤ year ∧ year ≤ 99) := by omega
  simp only [newDateLocal, hyr, ↓reduceIte, makeDay]
  generalize daysBeforeMonth (isLeapYear (year + monthIndex / 12)) (monthIndex % 12) = b
    at h0 h1 h2 ⊢
  simp only [msPerDay] at htz
  have hb : monthIndex = 12 → b = 0 := fun h => h2 (by omega)
  have hrange : -maxTimeValue ≤ (dayFromYear (year + monthIndex / 12) + b + day - 1) * msPerDay - tz ∧
      (dayFromYear (year + monthIndex / 12) + b + day - 1) * msPerDay - tz ≤ maxTimeValue := by
    simp only [dayFromYear, msPerDay, maxTimeValue]
    by_cases h12 : monthIndex = 12
    · have := hb h12
      omega
    · omega
  rw [if_pos hrange]

/-- The range `getCalendar` queries: the first and the last day of the month, each
shifted by the whole days of the zone offset (the day before, east of UTC). -/
theorem calendarRange_value {tz month year : Int}
    (htz : -msPerDay ≤ tz ∧ tz ≤ msPerDay) (hy : 2020 ≤ year ∧ year ≤ 275759)
    (hm : 1 ≤ month ∧ month ≤ 12) :
    calendarRange tz month year =
      some (makeDay year (month - 1) 1 + (-tz) / msPerDay,
        makeDay year month 0 + (-tz) / msPerDay) := by
  have h1 := @newDateLocal_value tz year (month - 1) 1 htz hy (by omega) (by omega)
  have h2 := @newDateLocal_value tz year month 0 htz hy (by omega) (by omega)
  unfold calendarRange
  rw [h1, h2]
  simp only [utcDay_local_midnight]

/-! ## The scrap flag under equipment calls -/

theorem findEquipment_append_single (rows : List EquipmentRow) (row : EquipmentRow)
    (id : String) :
    findEquipment (rows ++ [row]) id =
      (findEquipment rows id).or (if row.id = id then some row else none) := by
  simp only [findEquipment_eq_find, List.find?_append]
  by_cases h : row.id = id <;> simp [List.find?_cons, h]

theorem getEquipmentById_ok {up : Bool} {s : Store} {id : String} {e : EquipmentRow}
    (h : getEquipmentById up s id = .ok e) : findEquipment s.equipment id = some e := by
  unfold getEquipmentById at h
  split at h
  · split at h
    · rename_i e' hf
      cases h
      exact hf
    · cases h
  · cases h

theorem createEquipment_equipment (avail : Nat → Bool) (now : Int) (equipmentId : String)
    (s : Store) (data : CreateEquipmentData) :
    (createEquipment avail now equipmentId s data).2.equipment = s.equipment ∨
    ∃ row, (createEquipment avail now equipmentId s data).2.equipment = s.equipment ++ [row] := by
  unfold createEquipment
  split
  · split
    · exact Or.inl rfl
    · split
      · exact Or.inr ⟨_, rfl⟩
      · exact Or.inl rfl
  · exact Or.inl rfl

theorem writeEquipment_equipment (avail : Nat → Bool) (k : Nat) (now : Int) (s : Store)
    (id : String) (data : EquipmentUpdateData) (equipment : EquipmentRow) :
    (writeEquipment avail k now s id data equipment).2.equipment = s.equipment ∨
    (writeEquipment avail k now s id data equipment).2.equipment =
      s.equipment.map (fun e => if e.id == id then applyEquipmentUpdate now data e else e) := by
  unfold writeEquipment
  split
  · exact Or.inl rfl
  · split
    · exact Or.inr rfl
    · exact Or.inl rfl

theorem updateEquipment_equipment (avail : Nat → Bool) (now : Int) (s : Store) (id : String)
    (data : EquipmentUpdateData) :
    (updateEquipment avail now s id data).2.equipment = s.equipment ∨
    ∃ eq, findEquipment s.equipment id = some eq ∧
      ¬ (eq.is_scrapped = true ∧ data.isScrapped = some false) ∧
      (updateEquipment avail now s id data).2.equipment =
        s.equipment.map (fun e => if e.id == id then applyEquipmentUpdate now data e else e) := by
  unfold updateEquipment
  split
  · exact Or.inl rfl
  · rename_i eq heq
    have hfe := getEquipmentById_ok heq
    split
    · exact Or.inl rfl
    · rename_i hguard
      have hg : ¬ (eq.is_scrapped = true ∧ data.isScrapped = some false) := by
        simpa using hguard
      split
      · split
        · split
          · exact Or.inl rfl
          · rcases writeEquipment_equipment avail 2 now s id data eq with h | h
            · exact Or.inl h
            · exact Or.inr ⟨eq, hfe, hg, h⟩
        · exact Or.inl rfl
      · rcases writeEquipment_equipment avail 1 now s id data eq with h | h
        · exact Or.inl h
        · exact Or.inr ⟨eq, hfe, hg, h⟩

theorem scrapEquipment_equipment (up0 up1 : Bool) (now : Int) (s : Store) (id : String) :
    (scrapEquipment up0 up1 now s id).2.equipment = s.equipment ∨
    (scrapEquipment up0 up1 now s id).2.equipment = markScrapped now id s.equipment := by
  unfold scrapEquipment
  cases up0
  · exact Or.inl rfl
  · simp only [↓reduceIte]
    split <;> exact Or.inr rfl

theorem scrappedRow_step (avail : Nat → Bool) (now : Int) (s : Store) (op : EquipmentOp)
    (id : String) (h : ScrappedRow s id) : ScrappedRow (equipmentStep avail now s op) id := by
  obtain ⟨e, hfe, hs⟩ := h
  cases op with
  | create equipmentId data =>
    rcases createEquipment_equipment avail now equipmentId s data with h | ⟨row, h⟩
    · exact ⟨e, by simp only [equipmentStep, h]; exact hfe, hs⟩
    · refine ⟨e, ?_, hs⟩
      simp only [equipmentStep, h, findEquipment_append_single, hfe]
      rfl
  | update uid data =>
    rcases updateEquipment_equipment avail now s uid data with h | ⟨eq, heq, hg, h⟩
    · exact ⟨e, by simp only [equipmentStep, h]; exact hfe, hs⟩
    · simp only [ScrappedRow, equipmentStep, h]
      rw [findEquipment_map _ (by intro x; by_cases hx : x.id = uid <;> simp [hx, applyEquipmentUpdate]),
        hfe]
      by_cases hid : e.id = uid
      · have hidd : id = uid := by rw [← findEquipment_id hfe]; exact hid
        subst hidd
        rw [hfe] at heq
        cases heq
        have hflag : data.isScrapped ≠ some false := fun hf => hg ⟨hs, hf⟩
        refine ⟨applyEquipmentUpdate now data e, by simp [hid], ?_⟩
        cases hd : data.isScrapped with
        | none => simp [applyEquipmentUpdate, hd, hs]
        | some b =>
          cases b
          · exact absurd hd hflag
          · simp [applyEquipmentUpdate, hd]
      · exact ⟨e, by simp [hid], hs⟩
  | scrap sid =>
    rcases scrapEquipment_equipment (avail 0) (avail 1) now s sid with h | h
    · exact ⟨e, by simp only [equipmentStep, h]; exact hfe, hs⟩
    · simp only [ScrappedRow, equipmentStep, h, findEquipment_markScrapped, hfe]
      by_cases hid : e.id = sid
      · exact ⟨{ e with is_scrapped := true, updated_at := now }, by simp [hid], rfl⟩
      · exact ⟨e, by simp [hid], hs⟩

/-! ## Successful calls of updateStatus -/

/-- From its first `await` on, `updateStatus` is `updateStatusFrom` on the request the
lookup returned. -/
theorem updateStatus_eq_from (avail : Nat → Bool) (now : Int) (s : Store)
    (id newStatus : String) :
    updateStatus avail now s id newStatus =
      match getMaintenanceRequestById (avail 0) s id with
      | .error e => (.error e, s)
      | .ok request => updateStatusFrom avail now request s id newStatus := by
  unfold updateStatus updateStatusFrom
  cases getMaintenanceRequestById (avail 0) s id <;> rfl

/-- What a successful call has written. -/
theorem updateStatus_ok_frame {avail : Nat → Bool} {now : Int} {s : Store}
    {id newStatus : String} {r ret : RequestRow}
    (hr : getMaintenanceRequestById (avail 0) s id = .ok r)
    (h : (updateStatus avail now s id newStatus).1 = .ok ret) :
    (∃ targets, validTransitions r.status = some targets ∧ newStatus ∈ targets) ∧
    (updateStatus avail now s id newStatus).2.requests =
      setStatus newStatus (if newStatus = "REPAIRED" then some now else none) now id
        s.requests ∧
    (updateStatus avail now s id newStatus).2.demo = s.demo ∧
    (newStatus ≠ "SCRAP" → (updateStatus avail now s id newStatus).2.equipment = s.equipment) ∧
    (newStatus = "SCRAP" → (updateStatus avail now s id newStatus).2.equipment =
      markScrapped now r.equipment_id s.equipment) := by
  rcases updateStatus_cases avail now s id newStatus with
    ⟨e, _, heq⟩ | ⟨_, _, _, heq⟩ | ⟨_, _, _, _, _, heq⟩ | ⟨_, _, e, s1, _, _, _, _, _, heq⟩ |
    ⟨request, targets, eq, s1, hreq, htar, hmem, hsc, hscrap, heq⟩ |
    ⟨request, targets, hreq, htar, hmem, hsc, heq⟩
  · rw [heq] at h; cases h
  · rw [heq] at h; cases h
  · rw [heq] at h; cases h
  · rw [heq] at h; cases h
  · rw [hr] at hreq
    cases hreq
    rw [heq] at h ⊢
    obtain ⟨_, hreqs, _⟩ := writeStatus_ok h
    obtain ⟨hs1, _⟩ := scrapEquipment_ok hscrap
    refine ⟨⟨targets, htar, hmem⟩, ?_, ?_, fun hne => absurd hsc hne, fun _ => ?_⟩
    · rw [hreqs, hs1]
    · rw [writeStatus_demo, hs1]
    · rw [writeStatus_equipment, hs1]
  · rw [hr] at hreq
    cases hreq
    rw [heq] at h ⊢
    obtain ⟨_, hreqs, _⟩ := writeStatus_ok h
    refine ⟨⟨targets, htar, hmem⟩, hreqs, writeStatus_demo _ _ _ _ _ _,
      fun _ => writeStatus_equipment _ _ _ _ _ _, fun hs => absurd hs hsc⟩

theorem validTransitions_unknown {status : String} (h : status ∉ statuses) :
    validTransitions status = none := by
  simp only [statuses, List.mem_cons, List.mem_singleton, List.not_mem_nil, or_false,
    not_or] at h
  obtain ⟨h1, h2, h3, h4⟩ := h
  simp [validTransitions, h1, h2, h3, h4]

/-! ## The status machine -/

/-- C1. For a request stored in `maintenance_requests` with one of the four statuses,
whose equipment exists, and a target among the four statuses (database available):
`updateStatus` succeeds exactly when (current, target) is an edge of the transition
table; on an edge the returned row and the stored row have status `target`; off the
table the call fails with the 400 invalid-transition error. -/
theorem updateStatus_succeeds_iff_edge (s : Store) (now : Int) (id target : String)
    (r : RequestRow) (hr : findRequest s.requests id = some r)
    (hs : r.status ∈ statuses) (ht : target ∈ statuses)
    (he : findEquipment s.equipment r.equipment_id ≠ none) :
    ((∃ r', (updateStatus allUp now s id target).1 = .ok r') ↔
        (r.status, target) ∈ transitionTable) ∧
    ((r.status, target) ∈ transitionTable →
        (∃ r', (updateStatus allUp now s id target).1 = .ok r' ∧ r'.status = target) ∧
        (findRequest (updateStatus allUp now s id target).2.requests id).map (fun x => x.status)
          = some target) ∧
    ((r.status, target) ∉ transitionTable →
        ∃ targets, validTransitions r.status = some targets ∧
          (updateStatus allUp now s id target).1 =
            .error ⟨invalidTransitionMessage r.status target targets, 400⟩) := by
  obtain ⟨e, he'⟩ := Option.ne_none_iff_exists'.mp he
  have hid := findEquipment_id he'
  simp only [statuses, List.mem_cons, List.mem_singleton, List.not_mem_nil, or_false] at hs ht
  rcases hs with h | h | h | h <;> rcases ht with rfl | rfl | rfl | rfl <;>
    simp [updateStatus, getMaintenanceRequestById, allUp, hr, h, validTransitions,
      transitionTable, writeStatus, scrapEquipment, getEquipmentById,
      findRequest_setStatus, findEquipment_markScrapped, he', hid]

/-- C1 at a concrete store: the NEW request moves to IN_PROGRESS. -/
theorem updateStatus_succeeds_iff_edge_witness :
    (∃ r', (updateStatus allUp 1000 sampleStore "r-new" "IN_PROGRESS").1 = .ok r' ∧
        r'.status = "IN_PROGRESS") ∧
    (findRequest (updateStatus allUp 1000 sampleStore "r-new" "IN_PROGRESS").2.requests
        "r-new").map (fun x => x.status) = some "IN_PROGRESS" :=
  (updateStatus_succeeds_iff_edge sampleStore 1000 "r-new" "IN_PROGRESS"
    (sampleRequest "r-new" "NEW") (by decide) (by decide) (by decide) (by decide)).2.1
    (by decide)

/-- C2. Over every sequence of calls of createMaintenanceRequest,
updateMaintenanceRequest, updateStatus and deleteMaintenanceRequest (database
available), for every request id: each two consecutive statuses the stored request
shows are equal or joined by an edge of the transition table; a status that was left
never shows again; a request in REPAIRED or SCRAP keeps its row and its status in
every later store; and updateMaintenanceRequest leaves every stored status as it is
(whether or not its queries resolve). -/
theorem status_changes_follow_table (s : Store) (ops : List (Clock × Op)) (id : String) :
    List.Chain' EdgeOrSame (statusTrace s ops id) ∧
    (∀ (i j k : Nat) (a b : String), i < j → j < k →
        (statusTrace s ops id)[i]? = some a → (statusTrace s ops id)[j]? = some b →
        (statusTrace s ops id)[k]? = some a → b = a) ∧
    (∀ a, statusOf s id = some a → a = "REPAIRED" ∨ a = "SCRAP" →
        ∀ st ∈ run s ops, statusOf st id = some a) ∧
    (∀ (avail : Nat → Bool) (c : Clock) (uid : String) (data : UpdateData),
        statusOf (updateMaintenanceRequest avail c s uid data).2 id = statusOf s id) := by
  have hchain := (statusTrace_chain_aux ops id s).1
  refine ⟨hchain, ?_, ?_, ?_⟩
  · have hreach : List.Chain' Reaches (statusTrace s ops id) :=
      hchain.imp (fun a b h => by
        rcases h with h | h
        · exact Or.inl h
        · exact Or.inr (Or.inl h))
    haveI : IsTrans String Reaches := ⟨fun _ _ _ h1 h2 => reaches_trans h1 h2⟩
    have hpair := List.chain'_iff_pairwise.mp hreach
    rw [List.pairwise_iff_getElem] at hpair
    intro i j k a b hij hjk hi hj hk
    obtain ⟨hi', hia⟩ := List.getElem?_eq_some.mp hi
    obtain ⟨hj', hjb⟩ := List.getElem?_eq_some.mp hj
    obtain ⟨hk', hka⟩ := List.getElem?_eq_some.mp hk
    have h1 := hpair i j hi' hj' hij
    have h2 := hpair j k hj' hk' hjk
    rw [hia, hjb] at h1
    rw [hjb, hka] at h2
    exact (reaches_antisymm h1 h2).symm
  · intro a ha hterm
    exact terminal_status_kept ops id a hterm s ha
  · intro avail c uid data
    exact statusOf_updateMaintenanceRequest avail c s uid data id

/-- C2 at a concrete run: the trace of the sample request is NEW, IN_PROGRESS and then
REPAIRED for good, and it obeys the table. -/
theorem status_changes_follow_table_witness :
    statusTrace sampleStore sampleOps "r-new" =
      ["NEW", "IN_PROGRESS", "REPAIRED", "REPAIRED", "REPAIRED", "REPAIRED", "REPAIRED"] ∧
    List.Chain' EdgeOrSame (statusTrace sampleStore sampleOps "r-new") :=
  ⟨by decide, (status_changes_follow_table sampleStore sampleOps "r-new").1⟩

/-- C3. Whatever queries resolve, when `updateStatus` fails with the 400
invalid-transition error the store afterwards (request rows, equipment rows, demo
storage) is the store before; in particular a move to SCRAP asked of a stored request
that is REPAIRED or SCRAP is rejected that way and scraps no equipment. -/
theorem updateStatus_rejected_mutates_nothing (avail : Nat → Bool) (now : Int) (s : Store)
    (id newStatus : String) :
    (∀ e, (updateStatus avail now s id newStatus).1 = .error e → e.status = 400 →
        (updateStatus avail now s id newStatus).2 = s) ∧
    (∀ r, avail 0 = true → findRequest s.requests id = some r →
        r.status = "REPAIRED" ∨ r.status = "SCRAP" →
        (∃ e, (updateStatus avail now s id "SCRAP").1 = .error e ∧ e.status = 400) ∧
        (updateStatus avail now s id "SCRAP").2 = s) := by
  constructor
  · intro e he h400
    exact updateStatus_error_400 he h400
  · intro r h0 hr hst
    rcases hst with h | h <;>
      simp [updateStatus, getMaintenanceRequestById, h0, hr, h, validTransitions]

/-- C3 at a concrete store: SCRAP asked of the REPAIRED request. -/
theorem updateStatus_rejected_mutates_nothing_witness :
    (∃ e, (updateStatus allUp 1000 sampleStore "r-done" "SCRAP").1 = .error e ∧
        e.status = 400) ∧
    (updateStatus allUp 1000 sampleStore "r-done" "SCRAP").2 = sampleStore :=
  (updateStatus_rejected_mutates_nothing allUp 1000 sampleStore "r-done" "SCRAP").2
    (sampleRequest "r-done" "REPAIRED") (by decide) (by decide) (by decide)

/-- C4. Whatever queries resolve, when `updateStatus(id, 'SCRAP')` succeeds the equipment
referenced by the request the call read exists and every equipment row with that id has
`is_scrapped` true; and for a stored request in NEW or IN_PROGRESS whose equipment
exists the call does succeed when the database is available. -/
theorem updateStatus_scrap_marks_equipment (avail : Nat → Bool) (now : Int) (s : Store)
    (id : String) (r : RequestRow)
    (hr : getMaintenanceRequestById (avail 0) s id = .ok r) :
    (∀ ret, (updateStatus avail now s id "SCRAP").1 = .ok ret →
        (∃ e, findEquipment (updateStatus avail now s id "SCRAP").2.equipment r.equipment_id
          = some e ∧ e.is_scrapped = true) ∧
        ∀ e ∈ (updateStatus avail now s id "SCRAP").2.equipment,
          e.id = r.equipment_id → e.is_scrapped = true) ∧
    (findRequest s.requests id = some r → r.status = "NEW" ∨ r.status = "IN_PROGRESS" →
        findEquipment s.equipment r.equipment_id ≠ none →
        ∃ ret, (updateStatus allUp now s id "SCRAP").1 = .ok ret) := by
  constructor
  · intro ret hok
    rcases updateStatus_cases avail now s id "SCRAP" with
      ⟨e0, _, h⟩ | ⟨_, _, _, h⟩ | ⟨_, _, _, _, _, h⟩ | ⟨_, _, e1, s1, _, _, _, _, hsc, h⟩ |
      ⟨req, _, e1, s1, hreq, _, _, _, hsc, h⟩ | ⟨_, _, _, _, _, hne, h⟩
    · rw [h] at hok; cases hok
    · rw [h] at hok; cases hok
    · rw [h] at hok; cases hok
    · rw [h] at hok; cases hok
    · rw [hr] at hreq
      cases hreq
      obtain ⟨hs1, hfind⟩ := scrapEquipment_ok hsc
      rw [h, writeStatus_equipment]
      have hall : ∀ e ∈ s1.equipment, e.id = r.equipment_id → e.is_scrapped = true := by
        intro e he hid
        rw [hs1] at he
        exact mem_markScrapped he hid
      refine ⟨⟨e1, hfind, ?_⟩, hall⟩
      have hmem : e1 ∈ s1.equipment := by
        rw [findEquipment_eq_find] at hfind
        exact List.mem_of_find?_eq_some hfind
      exact hall e1 hmem (findEquipment_id hfind)
    · exact absurd rfl hne
  · intro hfr hst heq
    obtain ⟨e, he'⟩ := Option.ne_none_iff_exists'.mp heq
    have hid := findEquipment_id he'
    rcases hst with h | h <;>
      simp [updateStatus, getMaintenanceRequestById, allUp, hfr, h, validTransitions,
        writeStatus, scrapEquipment, getEquipmentById,
        findRequest_setStatus, findEquipment_markScrapped, he', hid]

/-- C4 at a concrete store: scrapping the NEW request flags its equipment. -/
theorem updateStatus_scrap_marks_equipment_witness :
    (∃ ret, (updateStatus allUp 1000 sampleStore "r-new" "SCRAP").1 = .ok ret) ∧
    ∀ e ∈ (updateStatus allUp 1000 sampleStore "r-new" "SCRAP").2.equipment,
      e.id = "eq-1" → e.is_scrapped = true :=
  ⟨⟨_, rfl⟩,
   ((updateStatus_scrap_marks_equipment allUp 1000 sampleStore "r-new"
      (sampleRequest "r-new" "NEW") rfl).1 _ rfl).2⟩

/-- C5, as stated, fails: with the status UPDATE rejected after the scrap write, the call
fails, the request is still NEW, yet the equipment (not scrapped before) is scrapped
and the store is not the one before the call. -/
theorem updateStatus_scrap_not_atomic :
    (updateStatus statusWriteFails 1000 sampleStore "r-new" "SCRAP").1 =
      .error ⟨"Failed to update maintenance request status", 500⟩ ∧
    statusOf (updateStatus statusWriteFails 1000 sampleStore "r-new" "SCRAP").2 "r-new" =
      some "NEW" ∧
    (findEquipment sampleStore.equipment "eq-1").map (fun e => e.is_scrapped) = some false ∧
    (findEquipment (updateStatus statusWriteFails 1000 sampleStore "r-new" "SCRAP").2.equipment
      "eq-1").map (fun e => e.is_scrapped) = some true ∧
    (updateStatus statusWriteFails 1000 sampleStore "r-new" "SCRAP").2 ≠ sampleStore := by
  refine ⟨rfl, by decide, by decide, by decide, by decide⟩

/-- C5, amended. For a stored request that is not yet SCRAP, read from the table, and
whatever later query is rejected: `updateStatus(id, 'SCRAP')` writes the equipment
first and the request second, so a successful call leaves the request SCRAP and its
equipment scrapped; whenever the request is SCRAP afterwards its equipment is
scrapped; and a call that fails with the 400 error, or whose scrap UPDATE is rejected,
leaves the store exactly as it was. -/
theorem updateStatus_scrap_order (avail : Nat → Bool) (now : Int) (s : Store) (id : String)
    (r : RequestRow) (h0 : avail 0 = true) (hr : findRequest s.requests id = some r)
    (hns : r.status ≠ "SCRAP") :
    (∀ ret, (updateStatus avail now s id "SCRAP").1 = .ok ret →
        statusOf (updateStatus avail now s id "SCRAP").2 id = some "SCRAP" ∧
        Scrapped (updateStatus avail now s id "SCRAP").2 r.equipment_id) ∧
    (statusOf (updateStatus avail now s id "SCRAP").2 id = some "SCRAP" →
        Scrapped (updateStatus avail now s id "SCRAP").2 r.equipment_id) ∧
    (∀ e, (updateStatus avail now s id "SCRAP").1 = .error e →
        e.status = 400 ∨ avail 1 = false →
        (updateStatus avail now s id "SCRAP").2 = s) := by
  have hget : getMaintenanceRequestById (avail 0) s id = .ok r := by
    rw [h0]; exact getMaintenanceRequestById_found hr
  have hbefore : statusOf s id ≠ some "SCRAP" := by
    simp [statusOf, hr, hns]
  refine ⟨?_, ?_, ?_⟩
  · intro ret hok
    rcases updateStatus_cases avail now s id "SCRAP" with
      ⟨e0, _, h⟩ | ⟨_, _, _, h⟩ | ⟨_, _, _, _, _, h⟩ | ⟨_, _, e1, s1, _, _, _, _, hsc, h⟩ |
      ⟨req, _, e1, s1, hreq, _, _, _, hsc, h⟩ | ⟨_, _, _, _, _, hne, h⟩
    · rw [h] at hok; cases hok
    · rw [h] at hok; cases hok
    · rw [h] at hok; cases hok
    · rw [h] at hok; cases hok
    · rw [hget] at hreq
      cases hreq
      have hsreq : s1.requests = s.requests := by
        have := scrapEquipment_requests (avail 1) (avail 2) now s r.equipment_id
        rw [hsc] at this
        exact this
      have hflag := scrapEquipment_ok_scrapped hsc
      rw [h] at hok ⊢
      obtain ⟨_, hreqs, _⟩ := writeStatus_ok hok
      refine ⟨?_, ?_⟩
      · simp [statusOf, hreqs, hsreq, findRequest_setStatus, hr]
      · unfold Scrapped
        rw [writeStatus_equipment]
        exact hflag
    · exact absurd rfl hne
  · intro hafter
    rcases updateStatus_cases avail now s id "SCRAP" with
      ⟨e0, _, h⟩ | ⟨_, _, _, h⟩ | ⟨_, _, _, _, _, h⟩ | ⟨rq, _, e1, s1, _, _, _, _, hsc, h⟩ |
      ⟨req, _, e1, s1, hreq, _, _, _, hsc, h⟩ | ⟨_, _, _, _, _, hne, h⟩
    · rw [h] at hafter; exact absurd hafter hbefore
    · rw [h] at hafter; exact absurd hafter hbefore
    · rw [h] at hafter; exact absurd hafter hbefore
    · rw [h] at hafter
      have := scrapEquipment_requests (avail 1) (avail 2) now s rq.equipment_id
      rw [hsc] at this
      simp only [statusOf] at hafter hbefore
      rw [this] at hafter
      exact absurd hafter hbefore
    · rw [hget] at hreq
      cases hreq
      have hflag := scrapEquipment_ok_scrapped hsc
      rw [h]
      unfold Scrapped
      rw [writeStatus_equipment]
      exact hflag
    · exact absurd rfl hne
  · intro e he hcond
    rcases hcond with h400 | h1
    · exact updateStatus_error_400 he h400
    · rcases updateStatus_cases avail now s id "SCRAP" with
        ⟨e0, _, h⟩ | ⟨_, _, _, h⟩ | ⟨_, _, _, _, _, h⟩ | ⟨_, _, e1, s1, _, _, _, _, hsc, h⟩ |
        ⟨req, _, e1, s1, hreq, _, _, _, hsc, h⟩ | ⟨_, _, _, _, _, hne, h⟩
      · rw [h]
      · rw [h]
      · rw [h]
      · rw [h1, scrapEquipment_down] at hsc
        simp only [Prod.mk.injEq] at hsc
        rw [h, ← hsc.2]
      · rw [h1, scrapEquipment_down] at hsc
        simp at hsc
      · exact absurd rfl hne

/-- C5 amended, at a concrete store: the successful scrap of the NEW request. -/
theorem updateStatus_scrap_order_witness :
    statusOf (updateStatus allUp 1000 sampleStore "r-new" "SCRAP").2 "r-new" = some "SCRAP" ∧
    Scrapped (updateStatus allUp 1000 sampleStore "r-new" "SCRAP").2 "eq-1" :=
  (updateStatus_scrap_order allUp 1000 sampleStore "r-new" (sampleRequest "r-new" "NEW")
    (by decide) (by decide) (by decide)).1 _ rfl

/-- C6. For a stored request read from the table, the message of the 400 error names
the current status, the requested status and the legal targets of the current status:
`IN_PROGRESS, SCRAP` for NEW, `REPAIRED, SCRAP` for IN_PROGRESS, `None` for REPAIRED
and for SCRAP (where every target is rejected); and the targets listed by the service
for a status are exactly its successors in the transition table. -/
theorem updateStatus_invalid_transition_error (avail : Nat → Bool) (now : Int) (s : Store)
    (id target : String) (r : RequestRow) (h0 : avail 0 = true)
    (hr : findRequest s.requests id = some r) :
    (r.status = "NEW" → target ≠ "IN_PROGRESS" → target ≠ "SCRAP" →
        (updateStatus avail now s id target).1 =
          .error ⟨"Invalid status transition from " ++ "NEW" ++ " to " ++ target ++
            ". Valid transitions: " ++ "IN_PROGRESS, SCRAP", 400⟩) ∧
    (r.status = "IN_PROGRESS" → target ≠ "REPAIRED" → target ≠ "SCRAP" →
        (updateStatus avail now s id target).1 =
          .error ⟨"Invalid status transition from " ++ "IN_PROGRESS" ++ " to " ++ target ++
            ". Valid transitions: " ++ "REPAIRED, SCRAP", 400⟩) ∧
    (r.status = "REPAIRED" →
        (updateStatus avail now s id target).1 =
          .error ⟨"Invalid status transition from " ++ "REPAIRED" ++ " to " ++ target ++
            ". Valid transitions: " ++ "None", 400⟩) ∧
    (r.status = "SCRAP" →
        (updateStatus avail now s id target).1 =
          .error ⟨"Invalid status transition from " ++ "SCRAP" ++ " to " ++ target ++
            ". Valid transitions: " ++ "None", 400⟩) ∧
    (∀ a ∈ statuses, ∃ targets, validTransitions a = some targets ∧
        ∀ t, t ∈ targets ↔ (a, t) ∈ transitionTable) := by
  have hj1 : joinOrNone ["IN_PROGRESS", "SCRAP"] = "IN_PROGRESS, SCRAP" := by decide
  have hj2 : joinOrNone ["REPAIRED", "SCRAP"] = "REPAIRED, SCRAP" := by decide
  have hj3 : joinOrNone [] = "None" := by decide
  refine ⟨?_, ?_, ?_, ?_, ?_⟩
  · intro h h1 h2
    simp [updateStatus, getMaintenanceRequestById, h0, hr, h, validTransitions, h1, h2,
      invalidTransitionMessage, hj1]
  · intro h h1 h2
    simp [updateStatus, getMaintenanceRequestById, h0, hr, h, validTransitions, h1, h2,
      invalidTransitionMessage, hj2]
  · intro h
    simp [updateStatus, getMaintenanceRequestById, h0, hr, h, validTransitions,
      invalidTransitionMessage, hj3]
  · intro h
    simp [updateStatus, getMaintenanceRequestById, h0, hr, h, validTransitions,
      invalidTransitionMessage, hj3]
  · intro a ha
    simp only [statuses, List.mem_cons, List.mem_singleton, List.not_mem_nil, or_false] at ha
    rcases ha with rfl | rfl | rfl | rfl <;> simp [validTransitions, transitionTable]

/-- C6 at a concrete store: REPAIRED asked of the NEW request. -/
theorem updateStatus_invalid_transition_error_witness :
    (updateStatus allUp 1000 sampleStore "r-new" "REPAIRED").1 =
      .error ⟨"Invalid status transition from NEW to REPAIRED. Valid transitions: IN_PROGRESS, SCRAP",
        400⟩ :=
  (updateStatus_invalid_transition_error allUp 1000 sampleStore "r-new" "REPAIRED"
    (sampleRequest "r-new" "NEW") (by decide) (by decide)).1 (by decide) (by decide)
    (by decide)

/-- C7. For a stored request in IN_PROGRESS, whatever queries resolve, when
`updateStatus(id, 'REPAIRED')` succeeds the stored row has status REPAIRED and its
`completed_date` is the clock reading of the call (not null); the returned row shows
the same when the read-back query resolves. -/
theorem updateStatus_repaired_sets_completed_date (avail : Nat → Bool) (now : Int) (s : Store)
    (id : String) (r ret : RequestRow) (hr : findRequest s.requests id = some r)
    (_hst : r.status = "IN_PROGRESS")
    (hok : (updateStatus avail now s id "REPAIRED").1 = .ok ret) :
    (findRequest (updateStatus avail now s id "REPAIRED").2.requests id).map
        (fun x => (x.status, x.completed_date)) = some ("REPAIRED", some now) ∧
    (avail 2 = true → ret.status = "REPAIRED" ∧ ret.completed_date = some now) := by
  rcases updateStatus_cases avail now s id "REPAIRED" with
    ⟨e0, _, h⟩ | ⟨_, _, _, h⟩ | ⟨_, _, _, _, _, h⟩ | ⟨_, _, e1, s1, _, _, _, _, hsc, h⟩ |
    ⟨req, _, e1, s1, hreq, _, _, hsc, _, h⟩ | ⟨_, _, _, _, _, hne, h⟩
  · rw [h] at hok; cases hok
  · rw [h] at hok; cases hok
  · rw [h] at hok; cases hok
  · rw [h] at hok; cases hok
  · simp at hsc
  · rw [h] at hok ⊢
    obtain ⟨_, hreqs, hback⟩ := writeStatus_ok hok
    have hrow : findRequest (writeStatus avail 1 now s id "REPAIRED").2.requests id =
        some { r with status := "REPAIRED", completed_date := some now, updated_at := now } := by
      rw [hreqs, findRequest_setStatus, hr]
      simp
    refine ⟨by rw [hrow]; rfl, ?_⟩
    intro h2
    have h2' : avail (1 + 1) = true := h2
    rw [h2', getMaintenanceRequestById_found hrow] at hback
    cases hback
    exact ⟨rfl, rfl⟩

/-- C7 at a concrete store: completing the IN_PROGRESS request at time 1000. -/
theorem updateStatus_repaired_sets_completed_date_witness :
    (findRequest (updateStatus allUp 1000 sampleStore "r-prog" "REPAIRED").2.requests
        "r-prog").map (fun x => (x.status, x.completed_date)) = some ("REPAIRED", some 1000) :=
  (updateStatus_repaired_sets_completed_date allUp 1000 sampleStore "r-prog"
    (sampleRequest "r-prog" "IN_PROGRESS") _ (by decide) (by decide) rfl).1

/-- C8 fails on the code: scrapping the NEW request of the sample store succeeds, and
both the returned row and the stored row have status SCRAP with `completed_date` null. -/
theorem updateStatus_scrap_completed_date_null :
    (∃ ret, (updateStatus allUp 1000 sampleStore "r-new" "SCRAP").1 = .ok ret ∧
        ret.status = "SCRAP" ∧ ret.completed_date = none) ∧
    (findRequest (updateStatus allUp 1000 sampleStore "r-new" "SCRAP").2.requests
        "r-new").map (fun x => (x.status, x.completed_date)) = some ("SCRAP", none) :=
  ⟨⟨_, rfl, rfl, rfl⟩, by decide⟩

/-- C9. `deleteMaintenanceRequest(id)`: every failure leaves the store unchanged
(whatever queries resolve); an id known neither to the table nor to the demo storage
fails with 404; a stored request whose status is not NEW (so IN_PROGRESS, REPAIRED and
SCRAP alike) fails with the 400 error; a stored NEW request is deleted, leaving no row
with that id and every other row, the equipment and the demo storage as they were;
hence, with the database available and the id not one held by the demo storage alone,
the call succeeds if and only if the request exists and is NEW. -/
theorem deleteMaintenanceRequest_only_new (avail : Nat → Bool) (s : Store) (id : String) :
    (∀ e, (deleteMaintenanceRequest avail s id).1 = .error e →
        (deleteMaintenanceRequest avail s id).2 = s) ∧
    (findRequest s.requests id = none → demoGet s.demo id = none →
        deleteMaintenanceRequest avail s id =
          (.error ⟨"Maintenance request not found", 404⟩, s)) ∧
    (∀ r, avail 0 = true → findRequest s.requests id = some r → r.status ≠ "NEW" →
        deleteMaintenanceRequest avail s id =
          (.error ⟨"Can only delete maintenance requests with NEW status", 400⟩, s)) ∧
    (∀ r, avail 0 = true → avail 1 = true → findRequest s.requests id = some r →
        r.status = "NEW" →
        (deleteMaintenanceRequest avail s id).1 = .ok "Maintenance request deleted successfully" ∧
        findRequest (deleteMaintenanceRequest avail s id).2.requests id = none ∧
        (∀ id', id' ≠ id →
          findRequest (deleteMaintenanceRequest avail s id).2.requests id' =
            findRequest s.requests id') ∧
        (deleteMaintenanceRequest avail s id).2.equipment = s.equipment ∧
        (deleteMaintenanceRequest avail s id).2.demo = s.demo) ∧
    (avail 0 = true → avail 1 = true →
        (findRequest s.requests id = none → demoGet s.demo id = none) →
        ((∃ m, (deleteMaintenanceRequest avail s id).1 = .ok m) ↔
          ∃ r, findRequest s.requests id = some r ∧ r.status = "NEW")) := by
  refine ⟨fun e he => deleteMaintenanceRequest_error he, ?_, ?_, ?_, ?_⟩
  · intro hn hd
    cases h : avail 0 <;>
      simp [deleteMaintenanceRequest, getMaintenanceRequestById, hn, hd, h]
  · intro r h0 hr hst
    simp [deleteMaintenanceRequest, getMaintenanceRequestById, h0, hr, hst]
  · intro r h0 h1 hr hst
    simp [deleteMaintenanceRequest, getMaintenanceRequestById, h0, h1, hr, hst,
      findRequest_delete]
    intro id' hne
    simp [hne]
  · intro h0 h1 hdemo
    cases hf : findRequest s.requests id with
    | none =>
      simp [deleteMaintenanceRequest, getMaintenanceRequestById, h0, hf, hdemo hf]
    | some r =>
      by_cases hst : r.status = "NEW" <;>
        simp [deleteMaintenanceRequest, getMaintenanceRequestById, h0, h1, hf, hst]

/-- C9 at a concrete store: the NEW request is deleted. -/
theorem deleteMaintenanceRequest_only_new_witness :
    (deleteMaintenanceRequest allUp sampleStore "r-new").1 =
      .ok "Maintenance request deleted successfully" ∧
    findRequest (deleteMaintenanceRequest allUp sampleStore "r-new").2.requests "r-new" = none :=
  ⟨((deleteMaintenanceRequest_only_new allUp sampleStore "r-new").2.2.2.1
      (sampleRequest "r-new" "NEW") (by decide) (by decide) (by decide) (by decide)).1,
   ((deleteMaintenanceRequest_only_new allUp sampleStore "r-new").2.2.2.1
      (sampleRequest "r-new" "NEW") (by decide) (by decide) (by decide) (by decide)).2.1⟩

/-- C10. `createMaintenanceRequest`, for every request type and whatever the other
fields: when the equipment lookup resolves and the equipment is scrapped the call
fails with the 400 scrapped-equipment error, when no equipment has the id it fails with
404, in both cases with the store unchanged; and, whatever queries resolve, the call
succeeds or changes the store only if the equipment exists and is not scrapped. -/
theorem createMaintenanceRequest_equipment_gate (avail : Nat → Bool) (c : Clock)
    (requestId : String) (s : Store) (data : CreateData) (createdBy : String) :
    (∀ e, avail 0 = true → findEquipment s.equipment data.equipmentId = some e →
        e.is_scrapped = true →
        createMaintenanceRequest avail c requestId s data createdBy =
          (.error ⟨"Cannot create request for scrapped equipment", 400⟩, s)) ∧
    (avail 0 = true → findEquipment s.equipment data.equipmentId = none →
        createMaintenanceRequest avail c requestId s data createdBy =
          (.error ⟨"Equipment not found", 404⟩, s)) ∧
    ((∃ r, (createMaintenanceRequest avail c requestId s data createdBy).1 = .ok r) ∨
        (createMaintenanceRequest avail c requestId s data createdBy).2 ≠ s →
        ∃ e, findEquipment s.equipment data.equipmentId = some e ∧ e.is_scrapped = false) := by
  refine ⟨?_, ?_, ?_⟩
  · intro e h0 he hs
    simp [createMaintenanceRequest, getEquipmentById, h0, he, hs]
  · intro h0 he
    simp [createMaintenanceRequest, getEquipmentById, h0, he]
  · intro h
    cases h0 : avail 0 with
    | false =>
      simp [createMaintenanceRequest, getEquipmentById, h0] at h
    | true =>
      cases he : findEquipment s.equipment data.equipmentId with
      | none => simp [createMaintenanceRequest, getEquipmentById, h0, he] at h
      | some e =>
        cases hs : e.is_scrapped with
        | true => simp [createMaintenanceRequest, getEquipmentById, h0, he, hs] at h
        | false => exact ⟨e, rfl, hs⟩

/-- C10 at a concrete store: a request on scrapped equipment is refused and nothing is
stored. -/
theorem createMaintenanceRequest_equipment_gate_witness :
    createMaintenanceRequest allUp ⟨1000, 0⟩ "r-5"
        { sampleStore with equipment := [{ sampleEquipment with is_scrapped := true }] }
        ⟨"Spindle noise", "Spindle is noisy", "PREVENTIVE", none, "eq-1", none, none, none,
          none, none⟩ "u-1" =
      (.error ⟨"Cannot create request for scrapped equipment", 400⟩,
        { sampleStore with equipment := [{ sampleEquipment with is_scrapped := true }] }) :=
  (createMaintenanceRequest_equipment_gate allUp ⟨1000, 0⟩ "r-5"
    { sampleStore with equipment := [{ sampleEquipment with is_scrapped := true }] }
    ⟨"Spindle noise", "Spindle is noisy", "PREVENTIVE", none, "eq-1", none, none, none, none,
      none⟩
    "u-1").1 { sampleEquipment with is_scrapped := true } (by decide) (by decide) (by decide)

/-- C11 fails on the code: on a server five hours west of UTC, at 10:00 local time on
10 February 2025, a request scheduled for 10 February 2025 (today, as the date-only
text `new Date` reads as midnight UTC) is refused with the past-date error, for both
request types, and nothing is stored. -/
theorem createMaintenanceRequest_today_rejected :
    localDay clockNewYork.tzOffsetMs clockNewYork.now = 20129 ∧
    civilFromDays 20129 = (2025, 2, 10) ∧
    createMaintenanceRequest allUp clockNewYork "r-5" sampleStore
        (sampleCreate "PREVENTIVE" none (some (dateOnly 20129))) "u-1" =
      (.error ⟨"Scheduled date cannot be in the past. Please select today or a future date.",
        400⟩, sampleStore) ∧
    createMaintenanceRequest allUp clockNewYork "r-5" sampleStore
        (sampleCreate "CORRECTIVE" none (some (dateOnly 20129))) "u-1" =
      (.error ⟨"Scheduled date cannot be in the past. Please select today or a future date.",
        400⟩, sampleStore) := by
  refine ⟨by decide, by decide, rfl, rfl⟩

/-- C12, as stated, fails: equipment `eq-1` belongs to `team-1`, yet a creation whose
body names `team-9` returns and stores a request of `team-9`, on the database path and
on the demo-storage path alike. -/
theorem createMaintenanceRequest_keeps_caller_team :
    (findEquipment sampleStore.equipment "eq-1").map (fun e => e.maintenance_team_id) =
      some (some "team-1") ∧
    (∃ r, (createMaintenanceRequest allUp clockKolkata "r-5" sampleStore
          (sampleCreate "CORRECTIVE" (some "team-9") none) "u-1").1 = .ok r ∧
        r.team_id = some "team-9" ∧
        findRequest (createMaintenanceRequest allUp clockKolkata "r-5" sampleStore
          (sampleCreate "CORRECTIVE" (some "team-9") none) "u-1").2.requests "r-5" = some r) ∧
    (∃ r, (createMaintenanceRequest insertFails clockKolkata "r-5" sampleStore
          (sampleCreate "CORRECTIVE" (some "team-9") none) "u-1").1 = .ok r ∧
        r.team_id = some "team-9" ∧
        demoGet (createMaintenanceRequest insertFails clockKolkata "r-5" sampleStore
          (sampleCreate "CORRECTIVE" (some "team-9") none) "u-1").2.demo "r-5" = some r) :=
  ⟨by decide, ⟨_, rfl, rfl, by decide⟩, ⟨_, rfl, rfl, by decide⟩⟩

/-- C12, amended. For every accepted input (fresh id, whatever queries resolve), the
team of the request that is returned and stored is the caller-supplied `teamId` when
one is given and not empty, and otherwise the maintenance team of the looked-up
equipment (null when the equipment has none). -/
theorem createMaintenanceRequest_team (avail : Nat → Bool) (c : Clock) (requestId : String)
    (s : Store) (data : CreateData) (createdBy : String) (r : RequestRow)
    (hfresh : findRequest s.requests requestId = none)
    (hdemo : demoGet s.demo requestId = none)
    (h : (createMaintenanceRequest avail c requestId s data createdBy).1 = .ok r) :
    ∃ e, findEquipment s.equipment data.equipmentId = some e ∧
      (∀ t, data.teamId = some t → t ≠ "" → r.team_id = some t) ∧
      (data.teamId = none ∨ data.teamId = some "" →
        r.team_id = orElse e.maintenance_team_id none) ∧
      (findRequest (createMaintenanceRequest avail c requestId s data createdBy).2.requests
          requestId = some r ∨
       demoGet (createMaintenanceRequest avail c requestId s data createdBy).2.demo
          requestId = some r) := by
  obtain ⟨e, hfe, _, hr, hstored⟩ := createMaintenanceRequest_created hfresh hdemo h
  have hteam : r.team_id = orElse (orElse data.teamId e.maintenance_team_id) none := by
    rcases hr with hr | hr <;> rw [hr] <;> rfl
  refine ⟨e, hfe, ?_, ?_, hstored⟩
  · intro t ht hne
    rw [hteam, ht]
    simp [orElse, hne]
  · intro hnone
    rw [hteam]
    rcases hnone with hn | hn <;> rw [hn] <;> simp [orElse]

/-- C12 amended, at a concrete store: without a `teamId` in the body the request gets
the team of its equipment. -/
theorem createMaintenanceRequest_team_witness :
    ∃ e, findEquipment sampleStore.equipment "eq-1" = some e ∧
      (∀ t, (none : Option String) = some t → t ≠ "" →
        (newRequestRow clockKolkata.now "r-5" (sampleCreate "CORRECTIVE" none none) "u-1"
          (some "team-1")).team_id = some t) ∧
      ((none : Option String) = none ∨ (none : Option String) = some "" →
        (newRequestRow clockKolkata.now "r-5" (sampleCreate "CORRECTIVE" none none) "u-1"
          (some "team-1")).team_id = orElse e.maintenance_team_id none) ∧
      (findRequest (createMaintenanceRequest allUp clockKolkata "r-5" sampleStore
          (sampleCreate "CORRECTIVE" none none) "u-1").2.requests "r-5" =
          some (newRequestRow clockKolkata.now "r-5" (sampleCreate "CORRECTIVE" none none)
            "u-1" (some "team-1")) ∨
       demoGet (createMaintenanceRequest allUp clockKolkata "r-5" sampleStore
          (sampleCreate "CORRECTIVE" none none) "u-1").2.demo "r-5" =
          some (newRequestRow clockKolkata.now "r-5" (sampleCreate "CORRECTIVE" none none)
            "u-1" (some "team-1"))) :=
  createMaintenanceRequest_team allUp clockKolkata "r-5" sampleStore
    (sampleCreate "CORRECTIVE" none none) "u-1"
    (newRequestRow clockKolkata.now "r-5" (sampleCreate "CORRECTIVE" none none) "u-1"
      (some "team-1")) (by decide) (by decide) rfl

/-- C13. For every accepted input (fresh id, whatever queries resolve, whatever status
the body carries), the request `createMaintenanceRequest` returns has status NEW, and
it is the request the store then holds under the id (in the table, or in the demo
storage when the database path failed). -/
theorem createMaintenanceRequest_status_new (avail : Nat → Bool) (c : Clock)
    (requestId : String) (s : Store) (data : CreateData) (createdBy : String) (r : RequestRow)
    (hfresh : findRequest s.requests requestId = none)
    (hdemo : demoGet s.demo requestId = none)
    (h : (createMaintenanceRequest avail c requestId s data createdBy).1 = .ok r) :
    r.status = "NEW" ∧
    (findRequest (createMaintenanceRequest avail c requestId s data createdBy).2.requests
        requestId = some r ∨
     demoGet (createMaintenanceRequest avail c requestId s data createdBy).2.demo
        requestId = some r) := by
  obtain ⟨e, _, _, hr, hstored⟩ := createMaintenanceRequest_created hfresh hdemo h
  refine ⟨?_, hstored⟩
  rcases hr with hr | hr <;> rw [hr] <;> rfl

/-- C13 at a concrete store: a body that carries the status REPAIRED yields a NEW
request. -/
theorem createMaintenanceRequest_status_new_witness :
    (sampleCreate "PREVENTIVE" none none).status = some "REPAIRED" ∧
    (newRequestRow clockKolkata.now "r-5" (sampleCreate "PREVENTIVE" none none) "u-1"
      (some "team-1")).status = "NEW" ∧
    findRequest (createMaintenanceRequest allUp clockKolkata "r-5" sampleStore
      (sampleCreate "PREVENTIVE" none none) "u-1").2.requests "r-5" =
      some (newRequestRow clockKolkata.now "r-5" (sampleCreate "PREVENTIVE" none none) "u-1"
        (some "team-1")) :=
  ⟨rfl,
   (createMaintenanceRequest_status_new allUp clockKolkata "r-5" sampleStore
      (sampleCreate "PREVENTIVE" none none) "u-1" _ (by decide) (by decide) rfl).1,
   by decide⟩

/-- C14, as stated, fails for `MaintenanceRequestRepository.findById`: a request created
for equipment of `team-1` and category Machinery reads back with `team-2` once the
equipment has been moved to `team-2`, and with category Hydraulic once the equipment
row carries that category. -/
theorem findById_reports_current_equipment :
    (repositoryCreate clockKolkata "REQ-000009" [] (sampleRequestData "New" none)).1.maintenanceTeamId
      = some "team-1" ∧
    (findById clockKolkata "REQ-000009" sampleRepoRequests sampleRepoStore.equipment
      "REQ-000001").map (fun m => (m.maintenanceTeamId, m.category)) =
      some (some "team-1", some "Machinery") ∧
    (findById clockKolkata "REQ-000009" sampleRepoRequests
      (updateEquipment allUp 5000 sampleRepoStore "eq-1" (moveToTeam "team-2")).2.equipment
      "REQ-000001").map (fun m => (m.maintenanceTeamId, m.category)) =
      some (some "team-2", some "Machinery") ∧
    (findById clockKolkata "REQ-000009" sampleRepoRequests
      [{ sampleEquipment with category := some "Hydraulic" }]
      "REQ-000001").map (fun m => (m.maintenanceTeamId, m.category)) =
      some (some "team-1", some "Hydraulic") := by
  refine ⟨rfl, by decide, by decide, by decide⟩

/-- C14, amended. The service keeps the team on the request row: whatever
`updateEquipment` does to the equipment, `getMaintenanceRequestById` returns afterwards
what it returned before.  `MaintenanceRequestRepository.findById` reads team and
category through its join: for a request in the repository's table it reports the
maintenance team and the category that the referenced equipment row has at the time
of the read (null and undefined when there is no such row). -/
theorem request_team_snapshot_and_join (avail : Nat → Bool) (now : Int) (s : Store)
    (eid : String) (data : EquipmentUpdateData) (up : Bool) (id : String) (c : Clock)
    (generatedId : String) (requests : List RepoRequestRow) (equipment : List EquipmentRow)
    (r : RepoRequestRow) (hr : findRepoRequest requests id = some r) :
    getMaintenanceRequestById up (updateEquipment avail now s eid data).2 id =
      getMaintenanceRequestById up s id ∧
    ∃ m, findById c generatedId requests equipment id = some m ∧
      m.maintenanceTeamId =
        (findEquipment equipment r.equipment_id).bind (fun e => e.maintenance_team_id) ∧
      m.category =
        orElse ((findEquipment equipment r.equipment_id).bind (fun e => e.category)) none := by
  constructor
  · obtain ⟨h1, h2⟩ := updateEquipment_requests avail now s eid data
    simp only [getMaintenanceRequestById, h1, h2]
  · rw [findById_eq, hr]
    exact ⟨_, rfl, (mapToModel_team c generatedId _).1, (mapToModel_team c generatedId _).2⟩

/-- C14 amended, at a concrete store: the service's row is untouched by the equipment
update, and the repository reads the team of the moved equipment. -/
theorem request_team_snapshot_and_join_witness :
    getMaintenanceRequestById true
        (updateEquipment allUp 5000 sampleRepoStore "eq-1" (moveToTeam "team-2")).2
        "REQ-000001" =
      getMaintenanceRequestById true sampleRepoStore "REQ-000001" ∧
    ∃ m, findById clockKolkata "REQ-000009" sampleRepoRequests
        (updateEquipment allUp 5000 sampleRepoStore "eq-1" (moveToTeam "team-2")).2.equipment
        "REQ-000001" = some m ∧
      m.maintenanceTeamId =
        (findEquipment
          (updateEquipment allUp 5000 sampleRepoStore "eq-1" (moveToTeam "team-2")).2.equipment
          "eq-1").bind (fun e => e.maintenance_team_id) ∧
      m.category =
        orElse ((findEquipment
          (updateEquipment allUp 5000 sampleRepoStore "eq-1" (moveToTeam "team-2")).2.equipment
          "eq-1").bind (fun e => e.category)) none :=
  request_team_snapshot_and_join allUp 5000 sampleRepoStore "eq-1" (moveToTeam "team-2") true
    "REQ-000001" clockKolkata "REQ-000009" sampleRepoRequests
    (updateEquipment allUp 5000 sampleRepoStore "eq-1" (moveToTeam "team-2")).2.equipment
    { id := "REQ-000001", subject := "Pressure testing", request_type := "Preventive",
      equipment_id := "eq-1", assigned_technician_id := none, scheduled_date := none,
      duration_hours := none, stage := "New", created_at := 20103, updated_at := 20103,
      completed_at := none }
    (by decide)

/-- C15 fails on the code: on a server five hours west of UTC, at 10:00 local time on
10 February 2025, a Preventive request in stage New scheduled for 10 February 2025
(today, as the date-only text `new Date` reads as midnight UTC) and constructed without
an `overdue` value is reported overdue by `calculateOverdue()`, which also sets the
field; at the same instant on a server on UTC the same request is not overdue.  And a
Corrective request constructed with `overdue: true` makes `calculateOverdue()` return
true and keeps the field true. -/
theorem calculateOverdue_today_is_overdue :
    civilFromDays 20129 = (2025, 2, 10) ∧
    localDay clockNewYork.tzOffsetMs clockNewYork.now = 20129 ∧
    (MaintenanceRequest.construct clockNewYork "REQ-000009"
        (sampleRequestData "New" (some (dateOnly 20129)))).requestType = "Preventive" ∧
    (MaintenanceRequest.construct clockNewYork "REQ-000009"
        (sampleRequestData "New" (some (dateOnly 20129)))).overdue = false ∧
    ((MaintenanceRequest.construct clockNewYork "REQ-000009"
        (sampleRequestData "New" (some (dateOnly 20129)))).calculateOverdue clockNewYork).1
      = true ∧
    ((MaintenanceRequest.construct clockNewYork "REQ-000009"
        (sampleRequestData "New" (some (dateOnly 20129)))).calculateOverdue
          clockNewYork).2.overdue = true ∧
    ((MaintenanceRequest.construct ⟨clockNewYork.now, 0⟩ "REQ-000009"
        (sampleRequestData "New" (some (dateOnly 20129)))).calculateOverdue
          ⟨clockNewYork.now, 0⟩).1 = false ∧
    (MaintenanceRequest.construct clockKolkata "REQ-000009" sampleCorrectiveOverdue).requestType
      = "Corrective" ∧
    ((MaintenanceRequest.construct clockKolkata "REQ-000009"
      sampleCorrectiveOverdue).calculateOverdue clockKolkata).1 = true ∧
    ((MaintenanceRequest.construct clockKolkata "REQ-000009"
      sampleCorrectiveOverdue).calculateOverdue clockKolkata).2.overdue = true := by
  refine ⟨by decide, by decide, by decide, by decide, by decide, by decide, by decide,
    by decide, by decide, by decide⟩

/-- C16 fails on the code: a Preventive request scheduled for 25 December 2024 is
marked as scrap on 15 January 2025, which sets `overdue` false; the next
`calculateOverdue()` returns true, and `findById` reports a stored Scrap request as
overdue. -/
theorem calculateOverdue_scrap_is_overdue :
    civilFromDays 20082 = (2024, 12, 25) ∧
    ((MaintenanceRequest.construct clockKolkata "REQ-000009"
        (sampleRequestData "New" (some (dateOnly 20082)))).markAsScrap clockKolkata).2.stage
      = "Scrap" ∧
    ((MaintenanceRequest.construct clockKolkata "REQ-000009"
        (sampleRequestData "New" (some (dateOnly 20082)))).markAsScrap clockKolkata).2.overdue
      = false ∧
    ((((MaintenanceRequest.construct clockKolkata "REQ-000009"
        (sampleRequestData "New" (some (dateOnly 20082)))).markAsScrap
          clockKolkata).2).calculateOverdue clockKolkata).1 = true ∧
    (findById clockKolkata "REQ-000009" [sampleRepoRow "Scrap"] sampleRepoStore.equipment
      "REQ-000003").map (fun m => (m.stage, m.overdue)) = some ("Scrap", true) := by
  refine ⟨by decide, by decide, by decide, by decide, by decide⟩

/-- C17 fails on the code: `markAsScrap()` on a Repaired request returns true and moves
it to Scrap, which is no edge of the table; on a Scrap request it returns true, keeps
the stage (a self-loop) and rewrites the dates. -/
theorem markAsScrap_ignores_table :
    (MaintenanceRequest.construct clockKolkata "REQ-000009"
      (sampleRequestData "Repaired" none)).stage = "Repaired" ∧
    ((MaintenanceRequest.construct clockKolkata "REQ-000009"
      (sampleRequestData "Repaired" none)).markAsScrap clockKolkata).1 = true ∧
    ((MaintenanceRequest.construct clockKolkata "REQ-000009"
      (sampleRequestData "Repaired" none)).markAsScrap clockKolkata).2.stage = "Scrap" ∧
    ("Repaired", "Scrap") ∉ stageTable ∧
    ((MaintenanceRequest.construct clockNewYork "REQ-000009"
      (sampleRequestData "Scrap" none)).markAsScrap clockKolkata).1 = true ∧
    ((MaintenanceRequest.construct clockNewYork "REQ-000009"
      (sampleRequestData "Scrap" none)).markAsScrap clockKolkata).2.stage = "Scrap" ∧
    ((MaintenanceRequest.construct clockNewYork "REQ-000009"
      (sampleRequestData "Scrap" none)).markAsScrap clockKolkata).2 ≠
      MaintenanceRequest.construct clockNewYork "REQ-000009" (sampleRequestData "Scrap" none) := by
  refine ⟨by decide, by decide, by decide, by decide, by decide, by decide, by decide⟩

/-- C18, as stated, fails: for January of the year 300000 the dates `getCalendar` builds
are Invalid Dates, `toISOString` throws, and the call fails with the 500 error whether
or not the database is available. -/
theorem getCalendar_year_out_of_range :
    getCalendar true clockKolkata sampleStore 1 300000 =
      .error ⟨"Failed to retrieve calendar", 500⟩ ∧
    getCalendar false clockKolkata sampleStore 1 300000 =
      .error ⟨"Failed to retrieve calendar", 500⟩ :=
  ⟨rfl, rfl⟩

/-- C18, amended. `getCalendar(month, year)` fails with a 400 error if and only if
month < 1, month > 12 or year < 2020; and for every month in 1..12 and every year from
2020 to 275759 (zone offset within a day) it returns a result carrying the month and
year passed in and a count equal to the number of its requests, whether or not the
query resolves. -/
theorem getCalendar_range_check (up : Bool) (c : Clock) (s : Store) (month year : Int) :
    ((∃ e, getCalendar up c s month year = .error e ∧ e.status = 400) ↔
      month < 1 ∨ month > 12 ∨ year < 2020) ∧
    (-msPerDay ≤ c.tzOffsetMs → c.tzOffsetMs ≤ msPerDay →
      1 ≤ month → month ≤ 12 → 2020 ≤ year → year ≤ 275759 →
      ∃ res, getCalendar up c s month year = .ok res ∧ res.month = month ∧
        res.year = year ∧ res.count = res.requests.length) := by
  constructor
  · constructor
    · rintro ⟨e, he, h400⟩
      exact getCalendar_error_400 he h400
    · intro h
      by_cases h1 : month < 1 ∨ month > 12
      · exact ⟨⟨"Invalid month. Must be between 1 and 12", 400⟩,
          by unfold getCalendar; rw [if_pos h1], rfl⟩
      · have h2 : year < 2020 := by omega
        exact ⟨⟨"Invalid year", 400⟩,
          by unfold getCalendar; rw [if_neg h1, if_pos h2], rfl⟩
  · intro ht1 ht2 hm1 hm2 hy1 hy2
    obtain ⟨range, hr⟩ :=
      @calendarRange_valid c.tzOffsetMs month year ⟨ht1, ht2⟩ ⟨hy1, hy2⟩ ⟨hm1, hm2⟩
    exact getCalendar_of_range ⟨hm1, hm2⟩ hy1 hr

/-- C18 amended, at a concrete call: February 2025 on the sample store. -/
theorem getCalendar_range_check_witness :
    ∃ res, getCalendar true clockKolkata sampleStore 2 2025 = .ok res ∧ res.month = 2 ∧
      res.year = 2025 ∧ res.count = res.requests.length :=
  (getCalendar_range_check true clockKolkata sampleStore 2 2025).2
    (by decide) (by decide) (by decide) (by decide) (by decide) (by decide)

/-- C19 fails on the code: on a server five and a half hours east of UTC,
`getCalendar(2, 2025)` builds the texts 2025-01-31 and 2025-02-27 (day numbers 20119 and
20146), not 2025-02-01 and 2025-02-28 (day numbers 20120 and 20147). -/
theorem calendarRange_east_of_utc :
    calendarRange clockKolkata.tzOffsetMs 2 2025 = some (20119, 20146) ∧
    civilFromDays 20119 = (2025, 1, 31) ∧ civilFromDays 20146 = (2025, 2, 27) ∧
    makeDay 2025 1 1 = 20120 ∧ makeDay 2025 2 0 = 20147 ∧
    civilFromDays 20120 = (2025, 2, 1) ∧ civilFromDays 20147 = (2025, 2, 28) := by
  refine ⟨by decide, by decide, by decide, by decide, by decide, by decide, by decide⟩

/-- C20 fails on the code: on a server five and a half hours east of UTC, on 15 January
2025, `getCalendar(2, 2025)` returns the request scheduled for 31 January 2025, the day
before the first of the month, and leaves out the one scheduled for 28 February 2025. -/
theorem getCalendar_returns_day_before_month :
    civilFromDays 20119 = (2025, 1, 31) ∧ civilFromDays 20147 = (2025, 2, 28) ∧
    calendarStore.requests.map (fun r => (r.id, r.type, r.status, r.scheduled_date)) =
      [("r-feb28", "PREVENTIVE", "NEW", some (dateOnly 20147)),
       ("r-jan31", "PREVENTIVE", "NEW", some (dateOnly 20119))] ∧
    ∃ res, getCalendar true clockKolkata calendarStore 2 2025 = .ok res ∧
      res.requests.map (fun r => r.id) = ["r-jan31"] ∧ res.count = 1 := by
  refine ⟨by decide, by decide, by decide, _, rfl, by decide, by decide⟩

/-- C21. Whatever the store holds, every request `getCalendar` returns has a scheduled
date, that date is not past for `isPastDate`, and it falls on a calendar day of the
server that is not before today's; for a date column (a date-only value) the stored day
itself is not before today's, in every zone.  When the query is rejected the result
holds no request at all. -/
theorem getCalendar_no_past_dates (up : Bool) (c : Clock) (s : Store) (month year : Int)
    (res : CalendarResult) (h : getCalendar up c s month year = .ok res) :
    (∀ r ∈ res.requests, ∃ d, r.scheduled_date = some d ∧ isPastDate c d = false ∧
      localDay c.tzOffsetMs c.now ≤ localDay c.tzOffsetMs d ∧
      (∀ day, d = dateOnly day → c.tzOffsetMs < msPerDay →
        localDay c.tzOffsetMs c.now ≤ day)) ∧
    (up = false → res.requests = []) := by
  constructor
  · intro r hr
    obtain ⟨_, start, stop, r0, d, _, _, _, hd, hnp, hj⟩ := (getCalendar_mem h r).mp hr
    have hld : localDay c.tzOffsetMs c.now ≤ localDay c.tzOffsetMs d := by
      have := (isPastDate_iff_localDay c d).not
      rw [hnp] at this
      simp only [Bool.false_eq_true, not_false_eq_true, not_lt, true_iff] at this
      exact this
    refine ⟨d, ?_, hnp, hld, ?_⟩
    · rw [← hj, (calendarJoin_scheduled s r0).1, hd]
    · intro day hday htz
      rw [hday, localDay_dateOnly] at hld
      simp only [msPerDay] at htz hld
      omega
  · intro hup
    obtain ⟨_, _, _, _, _, _, hreq⟩ := getCalendar_ok h
    rw [hreq, hup]
    rfl

/-- C21 at a concrete store: on 15 January 2025 the January calendar returns the
request of 20 January and not the stored request of 5 January. -/
theorem getCalendar_no_past_dates_witness :
    (∃ res, getCalendar true clockUtc januaryStore 1 2025 = .ok res ∧
      res.requests.map (fun r => r.id) = ["r-jan20"]) ∧
    ∀ res, getCalendar true clockUtc januaryStore 1 2025 = .ok res →
      ∀ r ∈ res.requests, ∃ d, r.scheduled_date = some d ∧ isPastDate clockUtc d = false ∧
        localDay clockUtc.tzOffsetMs clockUtc.now ≤ localDay clockUtc.tzOffsetMs d ∧
        (∀ day, d = dateOnly day → clockUtc.tzOffsetMs < msPerDay →
          localDay clockUtc.tzOffsetMs clockUtc.now ≤ day) :=
  ⟨⟨_, rfl, by decide⟩,
   fun res h => (getCalendar_no_past_dates true clockUtc januaryStore 1 2025 res h).1⟩

/-- C23. In every result of `getCalendar` the requests are in ascending order of
scheduled date, they are the rows of the ordered query result in their order (a
sublist of it), the count is the number of requests, and month and year are the values
passed in. -/
theorem getCalendar_sorted_count (up : Bool) (c : Clock) (s : Store) (month year : Int)
    (res : CalendarResult) (h : getCalendar up c s month year = .ok res) :
    List.Pairwise (fun a b => ∃ da db, a.scheduled_date = some da ∧
      b.scheduled_date = some db ∧ da ≤ db) res.requests ∧
    (∃ start stop, calendarRange c.tzOffsetMs month year = some (start, stop) ∧
      List.Sublist res.requests (calendarQuery s start stop)) ∧
    res.count = res.requests.length ∧ res.month = month ∧ res.year = year := by
  obtain ⟨start, stop, hrange, hm, hy, hcount, hreq⟩ := getCalendar_ok h
  have hsub : List.Sublist res.requests (calendarQuery s start stop) := by
    rw [hreq]
    cases up
    · exact List.nil_sublist _
    · exact List.filter_sublist _
  refine ⟨?_, ⟨start, stop, hrange, hsub⟩, hcount, hm, hy⟩
  have hkey := (scheduledKey_sorted s start stop).sublist hsub
  refine hkey.imp_of_mem ?_
  intro a b ha hb hab
  obtain ⟨_, _, _, ra, da, _, _, _, hda, _, hja⟩ := (getCalendar_mem h a).mp ha
  obtain ⟨_, _, _, rb, db, _, _, _, hdb, _, hjb⟩ := (getCalendar_mem h b).mp hb
  have ha' : a.scheduled_date = some da := by
    rw [← hja, (calendarJoin_scheduled s ra).1, hda]
  have hb' : b.scheduled_date = some db := by
    rw [← hjb, (calendarJoin_scheduled s rb).1, hdb]
  refine ⟨da, db, ha', hb', ?_⟩
  simpa [scheduledKey, ha', hb'] using hab

/-- C23 at a concrete store: on 1 January 2025 the January calendar lists the request of
5 January before the request of 20 January, although the table holds them the other
way round. -/
theorem getCalendar_sorted_count_witness :
    januaryStore.requests.map (fun r => r.id) = ["r-jan20", "r-jan05"] ∧
    ∃ res, getCalendar true clockUtcNewYear januaryStore 1 2025 = .ok res ∧
      res.requests.map (fun r => r.id) = ["r-jan05", "r-jan20"] ∧
      List.Pairwise (fun a b => ∃ da db, a.scheduled_date = some da ∧
        b.scheduled_date = some db ∧ da ≤ db) res.requests ∧
      res.count = res.requests.length ∧ res.month = 1 ∧ res.year = 2025 :=
  ⟨by decide, _, rfl, by decide,
    (getCalendar_sorted_count true clockUtcNewYear januaryStore 1 2025 _ rfl).1,
    (getCalendar_sorted_count true clockUtcNewYear januaryStore 1 2025 _ rfl).2.2⟩

/-- C22, as stated, fails: a preventive request for 5 January 2025 is accepted by the
creation gate on 1 January 2025; on 15 January 2025 the January calendar of the same
store no longer returns it. -/
theorem getCalendar_drops_passed_dates :
    (∃ r, (createMaintenanceRequest allUp clockUtcNewYear "r-jan05" sampleStore
          (sampleCreate "PREVENTIVE" none (some (dateOnly 20093))) "u-1").1 = .ok r ∧
        r.type = "PREVENTIVE" ∧ r.status = "NEW" ∧ r.scheduled_date = some (dateOnly 20093)) ∧
    civilFromDays 20093 = (2025, 1, 5) ∧
    ∃ res, getCalendar true clockUtc
        (createMaintenanceRequest allUp clockUtcNewYear "r-jan05" sampleStore
          (sampleCreate "PREVENTIVE" none (some (dateOnly 20093))) "u-1").2 1 2025 = .ok res ∧
      res.requests = [] ∧ res.count = 0 :=
  ⟨⟨_, rfl, rfl, rfl, rfl⟩, by decide, _, rfl, by decide, by decide⟩

/-- C22, amended. For a stored PREVENTIVE, non-SCRAP request scheduled on the calendar
day `day` (month in 1..12, year in 2020..275759): on a server whose zone is UTC,
`getCalendar(month, year)` returns it exactly when `day` lies between the first and the
last day of that month and is not before the day on which the query runs; and in every
zone a request whose day is before the query day is not returned, whenever it was
written. -/
theorem getCalendar_returns_current (c : Clock) (s : Store) (month year : Int)
    (r0 : RequestRow) (day : Int) (hmem : r0 ∈ s.requests)
    (hd : r0.scheduled_date = some (dateOnly day))
    (ht : r0.type = "PREVENTIVE") (hs : r0.status ≠ "SCRAP")
    (hm1 : 1 ≤ month) (hm2 : month ≤ 12) (hy : 2020 ≤ year) (hy2 : year ≤ 275759) :
    (c.tzOffsetMs = 0 →
      ((∃ res, getCalendar true c s month year = .ok res ∧
          calendarJoin s r0 ∈ res.requests) ↔
        makeDay year (month - 1) 1 ≤ day ∧ day ≤ makeDay year month 0 ∧
          utcDay c.now ≤ day)) ∧
    (c.tzOffsetMs < msPerDay → day < localDay c.tzOffsetMs c.now →
      ∀ res, getCalendar true c s month year = .ok res →
        calendarJoin s r0 ∉ res.requests) := by
  have hutc : utcDay (dateOnly day) = day := by
    simp [utcDay, dateOnly, msPerDay]
  have hback : ∀ res, getCalendar true c s month year = .ok res →
      calendarJoin s r0 ∈ res.requests →
      ∃ start stop, calendarRange c.tzOffsetMs month year = some (start, stop) ∧
        start ≤ day ∧ day ≤ stop ∧ isPastDate c (dateOnly day) = false := by
    intro res hres hin
    obtain ⟨_, start, stop, r1, d1, hrange, _, hwhere, hd1, hnp1, hj⟩ :=
      (getCalendar_mem hres _).mp hin
    have hsame : r1.scheduled_date = r0.scheduled_date := by
      have := congrArg RequestRow.scheduled_date hj
      simpa [calendarJoin] using this
    rw [hd1, hd] at hsame
    cases hsame
    obtain ⟨d2, hd2, _, h1, h2, _⟩ := (calendarWhere_iff start stop r1).mp hwhere
    rw [hd1] at hd2
    cases hd2
    rw [hutc] at h1 h2
    exact ⟨start, stop, hrange, h1, h2, hnp1⟩
  constructor
  · intro htz
    have hrange : calendarRange c.tzOffsetMs month year =
        some (makeDay year (month - 1) 1, makeDay year month 0) := by
      have h0 := @calendarRange_value 0 month year (by decide) ⟨hy, hy2⟩ ⟨hm1, hm2⟩
      simp only [neg_zero, Int.zero_ediv, add_zero] at h0
      rw [htz]
      exact h0
    have hpast : isPastDate c (dateOnly day) = true ↔ day < utcDay c.now := by
      rw [isPastDate_dateOnly, htz]
      simp [localDay, utcDay]
    constructor
    · rintro ⟨res, hres, hin⟩
      obtain ⟨start, stop, hrange1, h1, h2, hnp⟩ := hback res hres hin
      rw [hrange] at hrange1
      cases hrange1
      refine ⟨h1, h2, ?_⟩
      by_contra hlt
      have := hpast.mpr (by omega)
      rw [hnp] at this
      cases this
    · rintro ⟨h1, h2, htoday⟩
      obtain ⟨res, hres, _⟩ := @getCalendar_of_range true c s month year
        (makeDay year (month - 1) 1, makeDay year month 0) ⟨hm1, hm2⟩ hy hrange
      refine ⟨res, hres, ?_⟩
      rw [getCalendar_mem hres]
      have hnp : isPastDate c (dateOnly day) = false := by
        cases hp : isPastDate c (dateOnly day) with
        | false => rfl
        | true =>
          have := hpast.mp hp
          omega
      exact ⟨rfl, _, _, r0, dateOnly day, hrange, hmem,
        (calendarWhere_iff _ _ r0).mpr
          ⟨dateOnly day, hd, ht, by rw [hutc]; exact h1, by rw [hutc]; exact h2, hs⟩,
        hd, hnp, rfl⟩
  · intro htz hbefore res hres hin
    obtain ⟨_, _, _, _, _, hnp⟩ := hback res hres hin
    have hdiv : c.tzOffsetMs / msPerDay ≤ 0 := by
      simp only [msPerDay] at htz ⊢
      omega
    have := (isPastDate_dateOnly c day).mpr (by omega)
    rw [hnp] at this
    cases this

/-- C22 amended, at a concrete store: on 15 January 2025, on a server on UTC, the
January calendar returns the stored request of 20 January 2025 and not the stored
request of 5 January 2025. -/
theorem getCalendar_returns_current_witness :
    (∃ res, getCalendar true clockUtc januaryStore 1 2025 = .ok res ∧
      calendarJoin januaryStore
        { sampleRequest "r-jan20" "NEW" with
          type := "PREVENTIVE", scheduled_date := some (dateOnly 20108) } ∈ res.requests) ∧
    ∀ res, getCalendar true clockUtc januaryStore 1 2025 = .ok res →
      calendarJoin januaryStore
        { sampleRequest "r-jan05" "NEW" with
          type := "PREVENTIVE", scheduled_date := some (dateOnly 20093) } ∉ res.requests :=
  ⟨((getCalendar_returns_current clockUtc januaryStore 1 2025
      { sampleRequest "r-jan20" "NEW" with
        type := "PREVENTIVE", scheduled_date := some (dateOnly 20108) }
      20108 (by decide) rfl (by decide) (by decide) (by decide) (by decide) (by decide)
      (by decide)).1 rfl).mpr ⟨by decide, by decide, by decide⟩,
   (getCalendar_returns_current clockUtc januaryStore 1 2025
      { sampleRequest "r-jan05" "NEW" with
        type := "PREVENTIVE", scheduled_date := some (dateOnly 20093) }
      20093 (by decide) rfl (by decide) (by decide) (by decide) (by decide) (by decide)
      (by decide)).2 (by decide) (by decide)⟩

/-- C24. Over every sequence of `createEquipment`, `updateEquipment` (any update data)
and `scrapEquipment` calls, whatever queries resolve: equipment whose row is scrapped
has a scrapped row in every later store; and `updateEquipment` asked to set the flag
of scrapped equipment to false fails with the 400 cannot-unscrap error and returns the
store unchanged. -/
theorem scrapped_stays_scrapped (s : Store) (ops : List ((Nat → Bool) × Int × EquipmentOp))
    (id : String) :
    (ScrappedRow s id → ∀ st ∈ runEquipment s ops, ScrappedRow st id) ∧
    (∀ (avail : Nat → Bool) (now : Int) (data : EquipmentUpdateData),
      avail 0 = true → ScrappedRow s id → data.isScrapped = some false →
      updateEquipment avail now s id data = (.error ⟨"Cannot unscrap equipment", 400⟩, s)) := by
  constructor
  · induction ops generalizing s with
    | nil =>
      intro h st hst
      simp only [runEquipment, List.mem_singleton] at hst
      rw [hst]
      exact h
    | cons aop rest ih =>
      obtain ⟨avail, now, op⟩ := aop
      intro h st hst
      simp only [runEquipment, List.mem_cons] at hst
      rcases hst with rfl | hst
      · exact h
      · exact ih (equipmentStep avail now s op) (scrappedRow_step avail now s op id h) st hst
  · rintro avail now data h0 ⟨e, hfe, hs⟩ hd
    simp [updateEquipment, getEquipmentById, h0, hfe, hs, hd]

/-- C24 at a concrete run: after the scrap of `eq-1` every later store shows it
scrapped, the request to unscrap it included. -/
theorem scrapped_stays_scrapped_witness :
    (findEquipment sampleStore.equipment "eq-1").map (fun e => e.is_scrapped) = some false ∧
    (runEquipment (equipmentStep allUp 1000 sampleStore (.scrap "eq-1"))
        sampleEquipmentOps.tail).map
      (fun st => (findEquipment st.equipment "eq-1").map (fun e => e.is_scrapped)) =
      [some true, some true, some true, some true] ∧
    (∀ st ∈ runEquipment (equipmentStep allUp 1000 sampleStore (.scrap "eq-1"))
        sampleEquipmentOps.tail, ScrappedRow st "eq-1") ∧
    updateEquipment allUp 2000 (equipmentStep allUp 1000 sampleStore (.scrap "eq-1")) "eq-1"
        (setScrapFlag false) =
      (.error ⟨"Cannot unscrap equipment", 400⟩,
        equipmentStep allUp 1000 sampleStore (.scrap "eq-1")) :=
  ⟨by decide, by decide,
   (scrapped_stays_scrapped (equipmentStep allUp 1000 sampleStore (.scrap "eq-1"))
      sampleEquipmentOps.tail "eq-1").1 ⟨_, rfl, rfl⟩,
   (scrapped_stays_scrapped (equipmentStep allUp 1000 sampleStore (.scrap "eq-1"))
      [] "eq-1").2 allUp 2000 (setScrapFlag false) rfl ⟨_, rfl, rfl⟩ rfl⟩

/-- C25, as stated, fails when the two calls overlap: both look the IN_PROGRESS request up
before either resumes, the call for REPAIRED then resumes and succeeds, the call for
SCRAP resumes with the row it read, succeeds as well, and its write is the one that
stays. -/
theorem updateStatus_overlapping_calls_both_succeed :
    getMaintenanceRequestById (allUp 0) sampleStore "r-prog" =
      .ok (sampleRequest "r-prog" "IN_PROGRESS") ∧
    (∃ a, (updateStatusFrom allUp 1000 (sampleRequest "r-prog" "IN_PROGRESS") sampleStore
        "r-prog" "REPAIRED").1 = .ok a ∧ a.status = "REPAIRED") ∧
    (∃ b, (updateStatusFrom allUp 2000 (sampleRequest "r-prog" "IN_PROGRESS")
        (updateStatusFrom allUp 1000 (sampleRequest "r-prog" "IN_PROGRESS") sampleStore
          "r-prog" "REPAIRED").2 "r-prog" "SCRAP").1 = .ok b ∧ b.status = "SCRAP") ∧
    statusOf (updateStatusFrom allUp 2000 (sampleRequest "r-prog" "IN_PROGRESS")
        (updateStatusFrom allUp 1000 (sampleRequest "r-prog" "IN_PROGRESS") sampleStore
          "r-prog" "REPAIRED").2 "r-prog" "SCRAP").2 "r-prog" = some "SCRAP" :=
  ⟨rfl, ⟨_, rfl, rfl⟩, ⟨_, rfl, rfl⟩, by decide⟩

/-- C25, amended, for calls that do not overlap. On a request stored with status IN_PROGRESS,
when a call of `updateStatus` has succeeded (whatever queries resolve), its target was
REPAIRED or SCRAP, and every call that starts afterwards with its lookup answered by
the database, whatever its target, fails with the 400 invalid-transition error (legal
targets: none) and leaves the store as the first call left it. -/
theorem updateStatus_second_call_rejected (avail1 avail2 : Nat → Bool) (now1 now2 : Int)
    (s : Store) (id target1 target2 : String) (r ret : RequestRow)
    (hr : findRequest s.requests id = some r) (hs : r.status = "IN_PROGRESS")
    (h1 : avail1 0 = true) (h2 : avail2 0 = true)
    (hok : (updateStatus avail1 now1 s id target1).1 = .ok ret) :
    (target1 = "REPAIRED" ∨ target1 = "SCRAP") ∧
    statusOf (updateStatus avail1 now1 s id target1).2 id = some target1 ∧
    updateStatus avail2 now2 (updateStatus avail1 now1 s id target1).2 id target2 =
      (.error ⟨invalidTransitionMessage target1 target2 [], 400⟩,
        (updateStatus avail1 now1 s id target1).2) := by
  have hlook : getMaintenanceRequestById (avail1 0) s id = .ok r := by
    rw [h1]
    exact getMaintenanceRequestById_found hr
  obtain ⟨⟨targets, htar, hmem⟩, hreqs, _, _, _⟩ := updateStatus_ok_frame hlook hok
  have ht : target1 = "REPAIRED" ∨ target1 = "SCRAP" := by
    rw [hs] at htar
    simp only [validTransitions] at htar
    simp at htar
    subst htar
    simpa using hmem
  have hrow : findRequest (updateStatus avail1 now1 s id target1).2.requests id =
      some { r with status := target1,
                    completed_date := (if target1 = "REPAIRED" then some now1 else none),
                    updated_at := now1 } := by
    rw [hreqs, findRequest_setStatus, hr]
    rfl
  refine ⟨ht, by simp [statusOf, hrow], ?_⟩
  have hlook2 := getMaintenanceRequestById_found hrow
  rw [updateStatus_eq_from, h2, hlook2]
  rcases ht with rfl | rfl <;> simp [updateStatusFrom, validTransitions]

/-- C25 amended, at concrete calls: after REPAIRED has succeeded on the IN_PROGRESS request, the
call for SCRAP is rejected. -/
theorem updateStatus_second_call_rejected_witness :
    (updateStatus allUp 2000 (updateStatus allUp 1000 sampleStore "r-prog" "REPAIRED").2
        "r-prog" "SCRAP").1 =
      .error ⟨"Invalid status transition from REPAIRED to SCRAP. Valid transitions: None",
        400⟩ :=
  congrArg Prod.fst
    (updateStatus_second_call_rejected allUp allUp 1000 2000 sampleStore "r-prog" "REPAIRED"
      "SCRAP" (sampleRequest "r-prog" "IN_PROGRESS")
      { sampleRequest "r-prog" "IN_PROGRESS" with
        status := "REPAIRED", completed_date := some 1000, updated_at := 1000 }
      (by decide) rfl rfl rfl rfl).2.2

/-- C26, as stated, fails: a creation that names a technician who is not in the team of
the equipment (`canAssignTechnician` is false) is accepted; the request is stored with
the team filled in and without a technician. -/
theorem createMaintenanceRequest_accepts_foreign_technician :
    (MaintenanceRequest.construct clockUtc "REQ-000001"
        (sampleRequestData "New" none)).canAssignTechnician "tech-9" (some sampleTeam) = false ∧
    ∃ r, (createMaintenanceRequest allUp clockUtc "r-5" sampleStore
        { sampleCreate "CORRECTIVE" none none with assignedTo := some "tech-9" } "u-1").1 =
          .ok r ∧
      r.team_id = some "team-1" ∧ r.assigned_to = none ∧
      findRequest (createMaintenanceRequest allUp clockUtc "r-5" sampleStore
        { sampleCreate "CORRECTIVE" none none with assignedTo := some "tech-9" }
        "u-1").2.requests "r-5" = some r :=
  ⟨by decide, _, rfl, rfl, rfl, by decide⟩

/-- C26, amended. `createMaintenanceRequest` does not read the technician of
the body: outcome and store are the same whatever technician is supplied; and under a
fresh id the request it returns is the one it stored (in the table or in the demo
storage) and has no technician. -/
theorem createMaintenanceRequest_ignores_technician (avail : Nat → Bool) (c : Clock)
    (requestId : String) (s : Store) (data : CreateData) (createdBy : String)
    (technician : Option String) :
    createMaintenanceRequest avail c requestId s { data with assignedTo := technician }
        createdBy =
      createMaintenanceRequest avail c requestId s data createdBy ∧
    (findRequest s.requests requestId = none → demoGet s.demo requestId = none →
      ∀ r, (createMaintenanceRequest avail c requestId s data createdBy).1 = .ok r →
        r.assigned_to = none ∧
        (findRequest (createMaintenanceRequest avail c requestId s data createdBy).2.requests
            requestId = some r ∨
         demoGet (createMaintenanceRequest avail c requestId s data createdBy).2.demo
            requestId = some r)) := by
  refine ⟨rfl, ?_⟩
  intro hfresh hdemo r h
  obtain ⟨e, _, _, hform, hstored⟩ := createMaintenanceRequest_created hfresh hdemo h
  refine ⟨?_, hstored⟩
  rcases hform with rfl | rfl <;> rfl

/-- C26 amended, at a concrete call: the technician of the body does not reach the stored
request. -/
theorem createMaintenanceRequest_ignores_technician_witness :
    ∀ r, (createMaintenanceRequest allUp clockUtc "r-5" sampleStore
        { sampleCreate "CORRECTIVE" none none with assignedTo := some "tech-9" } "u-1").1 =
          .ok r →
      r.assigned_to = none :=
  fun r h =>
    ((createMaintenanceRequest_ignores_technician allUp clockUtc "r-5" sampleStore
      { sampleCreate "CORRECTIVE" none none with assignedTo := some "tech-9" } "u-1"
      none).2 (by decide) (by decide) r h).1

/-- C27 fails on the code: `validateMaintenanceRequestData` reports a body
without scheduled date invalid for the request type `Preventive`, but it reports the
same body valid for the type `PREVENTIVE` the service uses, and
`createMaintenanceRequest` stores a PREVENTIVE request without scheduled date. -/
theorem createMaintenanceRequest_preventive_without_date :
    validateMaintenanceRequestData (fun _ => true)
        ⟨some "Quarterly inspection", some "eq-1", none, none⟩ "Preventive" =
      (false, ["Valid scheduled date is required for preventive requests (YYYY-MM-DD)"]) ∧
    validateMaintenanceRequestData (fun _ => true)
        ⟨some "Quarterly inspection", some "eq-1", none, none⟩ "PREVENTIVE" = (true, []) ∧
    ∃ r, (createMaintenanceRequest allUp clockUtc "r-5" sampleStore
        (sampleCreate "PREVENTIVE" none none) "u-1").1 = .ok r ∧
      r.type = "PREVENTIVE" ∧ r.status = "NEW" ∧ r.scheduled_date = none ∧
      findRequest (createMaintenanceRequest allUp clockUtc "r-5" sampleStore
        (sampleCreate "PREVENTIVE" none none) "u-1").2.requests "r-5" = some r :=
  ⟨by decide, by decide, _, rfl, rfl, rfl, rfl, by decide⟩

/-- C28. `markAsRepaired(durationHours)` returns true exactly when the stage is
`In Progress` and the hours are a number greater than 0; then the stage is `Repaired`,
the hours are recorded, the completion and update dates are today and the overdue flag
is false, every other field being kept; when it returns false the request is as it
was. -/
theorem markAsRepaired_iff (c : Clock) (m : MaintenanceRequest) (durationHours : Option ℚ) :
    ((m.markAsRepaired c durationHours).1 = true ↔
      m.stage = "In Progress" ∧ ∃ x, durationHours = some x ∧ 0 < x) ∧
    ((m.markAsRepaired c durationHours).1 = true →
      (m.markAsRepaired c durationHours).2 =
        { m with stage := "Repaired", durationHours := durationHours,
                 completedAt := some (getTodayDate c), updatedAt := getTodayDate c,
                 overdue := false }) ∧
    ((m.markAsRepaired c durationHours).1 = false →
      (m.markAsRepaired c durationHours).2 = m) := by
  cases durationHours with
  | none => simp [MaintenanceRequest.markAsRepaired]
  | some x =>
    by_cases hst : m.stage = "In Progress"
    · by_cases hx : 0 < x
      · have hx0 : x ≠ 0 := ne_of_gt hx
        simp [MaintenanceRequest.markAsRepaired, hst, hx, hx0]
      · simp [MaintenanceRequest.markAsRepaired, hst, hx]
    · simp [MaintenanceRequest.markAsRepaired, hst]

/-- C28 at concrete requests: two and a half hours on a request in progress are
recorded. -/
theorem markAsRepaired_iff_witness :
    (MaintenanceRequest.construct clockUtc "REQ-000001"
        (sampleRequestData "In Progress" none)).stage = "In Progress" ∧
    ((MaintenanceRequest.construct clockUtc "REQ-000001"
        (sampleRequestData "In Progress" none)).markAsRepaired clockUtc (some (5 / 2))).1 =
      true :=
  ⟨rfl,
   (markAsRepaired_iff clockUtc
      (MaintenanceRequest.construct clockUtc "REQ-000001"
        (sampleRequestData "In Progress" none)) (some (5 / 2))).1.mpr
      ⟨rfl, 5 / 2, rfl, by norm_num⟩⟩

/-- C29 fails on the code: for a request stored with a status that is not a key of the
transition table, and the lookup answered by the database, `updateStatus` fails for
every target with the 500 error `Failed to update maintenance request status` (the
message of the 400 error cannot be built) and leaves the store as it was. -/
theorem updateStatus_unknown_status (avail : Nat → Bool) (now : Int) (s : Store)
    (id target : String) (r : RequestRow) (h0 : avail 0 = true)
    (hr : findRequest s.requests id = some r) (hs : r.status ∉ statuses) :
    updateStatus avail now s id target =
      (.error ⟨"Failed to update maintenance request status", 500⟩, s) := by
  have hlook := getMaintenanceRequestById_found hr
  rw [updateStatus_eq_from, h0, hlook]
  simp [updateStatusFrom, validTransitions_unknown hs]

/-- C29 at a concrete store: the request seeded with status `New` cannot be moved, and
the error is the 500 one. -/
theorem updateStatus_unknown_status_witness :
    updateStatus allUp 1000 seededStore "r-seed" "IN_PROGRESS" =
      (.error ⟨"Failed to update maintenance request status", 500⟩, seededStore) :=
  updateStatus_unknown_status allUp 1000 seededStore "r-seed" "IN_PROGRESS"
    (sampleRequest "r-seed" "New") rfl (by decide) (by decide)

/-- C30. When `updateStatus(id, target)` succeeds on the request `r` its lookup
returned (whatever queries resolve): the request rows afterwards are the rows before
with status, completed_date and updated_at rewritten in the rows of that id and every
other row as it was; the demo storage is as it was; for a target other than SCRAP the
equipment rows are as they were; for SCRAP they are the rows before with is_scrapped
and updated_at rewritten in the rows of the request's equipment and every other row as
it was. -/
theorem updateStatus_frame (avail : Nat → Bool) (now : Int) (s : Store) (id target : String)
    (r ret : RequestRow)
    (hr : getMaintenanceRequestById (avail 0) s id = .ok r)
    (hok : (updateStatus avail now s id target).1 = .ok ret) :
    (updateStatus avail now s id target).2.requests =
      s.requests.map (fun x =>
        if x.id == id then
          { x with status := target,
                   completed_date := (if target = "REPAIRED" then some now else none),
                   updated_at := now }
        else x) ∧
    (∀ id', id' ≠ id →
      findRequest (updateStatus avail now s id target).2.requests id' =
        findRequest s.requests id') ∧
    (updateStatus avail now s id target).2.demo = s.demo ∧
    (target ≠ "SCRAP" → (updateStatus avail now s id target).2.equipment = s.equipment) ∧
    (target = "SCRAP" →
      (updateStatus avail now s id target).2.equipment =
        s.equipment.map (fun e =>
          if e.id == r.equipment_id then { e with is_scrapped := true, updated_at := now }
          else e) ∧
      ∀ id', id' ≠ r.equipment_id →
        findEquipment (updateStatus avail now s id target).2.equipment id' =
          findEquipment s.equipment id') := by
  obtain ⟨_, hreqs, hdemo, hne, hscrap⟩ := updateStatus_ok_frame hr hok
  refine ⟨hreqs, ?_, hdemo, hne, ?_⟩
  · intro id' hid
    rw [hreqs]
    exact findRequest_setStatus_ne _ _ _ _ _ hid _
  · intro ht
    refine ⟨hscrap ht, ?_⟩
    intro id' hid
    rw [hscrap ht, findEquipment_markScrapped]
    cases hfe : findEquipment s.equipment id' with
    | none => rfl
    | some e =>
      have : e.id ≠ r.equipment_id := by
        rw [findEquipment_id hfe]
        exact hid
      simp [this]

/-- C30 at a concrete call: scrapping the NEW request leaves the three other requests
and the demo storage as they were. -/
theorem updateStatus_frame_witness :
    (updateStatus allUp 1000 sampleStore "r-new" "SCRAP").2.requests =
      [{ sampleRequest "r-new" "NEW" with status := "SCRAP", updated_at := 1000 },
       sampleRequest "r-prog" "IN_PROGRESS", sampleRequest "r-done" "REPAIRED",
       sampleRequest "r-scrap" "SCRAP"] ∧
    (updateStatus allUp 1000 sampleStore "r-new" "SCRAP").2.equipment =
      [{ sampleEquipment with is_scrapped := true, updated_at := 1000 }] :=
  ⟨(updateStatus_frame allUp 1000 sampleStore "r-new" "SCRAP" (sampleRequest "r-new" "NEW")
      { sampleRequest "r-new" "NEW" with status := "SCRAP", updated_at := 1000 }
      rfl rfl).1,
   ((updateStatus_frame allUp 1000 sampleStore "r-new" "SCRAP" (sampleRequest "r-new" "NEW")
      { sampleRequest "r-new" "NEW" with status := "SCRAP", updated_at := 1000 }
      rfl rfl).2.2.2.2 rfl).1⟩

end Maintenance
